import Mathlib

/-!
Verification development for the ACIS SAT text codec (`ezdxf/acis.py`).

The Python module is shallowly embedded: Python `str` becomes Lean `String`
(operated on through its underlying `List Char`), Python `int` becomes `Int`,
exceptions become an `Except PyErr` result, and Python object identity is made
explicit through an `oid : Nat` field on entities together with the reference
type `ARef` (`ARef.null` is the identity of the process-wide `NULL_PTR`
sentinel, `ARef.pynone` models Python `None`).

Modelling notes, recorded once here:
* `datetime` values are carried as their `ctime`-style strings; `strptime`
  acceptance is modelled lexically by `matchesCtime`.  No claim depends on
  calendar semantics.
* `float` header fields (`units_in_mm`) are carried as their formatted
  strings; `float()` acceptance is modelled lexically by `pyFloatOk`.  No
  claim depends on float arithmetic.
* Python `int(s)` is modelled for ASCII tokens: an optional sign followed by
  decimal digits (underscore separators and non-ASCII digits are outside the
  inputs this codec meets).
-/

/-- Python exception kinds raised (or raisable) by the codec. -/
inductive PyErr where
  | indexError : PyErr
  | valueError (msg : String) : PyErr
  | keyError (k : Int) : PyErr
  | typeError (msg : String) : PyErr
  | linkStructure (msg : String) : PyErr
deriving DecidableEq, Repr

/-- Whitespace characters recognised by Python `str.split()` / `strip()`. -/
def isWsC (c : Char) : Bool :=
  c = ' ' || c = '\t' || c = '\n' || c = '\r' || c = '\x0b' || c = '\x0c'

mutual
/-- Python `str.split()` on a character list: skip leading whitespace. -/
def splitChars : List Char → List (List Char)
  | [] => []
  | c :: cs => if isWsC c then splitChars cs else splitWord cs [c]

/-- Python `str.split()` word state: `acc` holds the current word reversed. -/
def splitWord : List Char → List Char → List (List Char)
  | [], acc => [acc.reverse]
  | c :: cs, acc => if isWsC c then acc.reverse :: splitChars cs else splitWord cs (c :: acc)
end

/-- Python `s.split()` (split on runs of whitespace, dropping empties). -/
def pySplit (s : String) : List String :=
  (splitChars s.data).map String.mk

/-- Join a list of character lists with single spaces (Python `" ".join`). -/
def joinChars : List (List Char) → List Char
  | [] => []
  | [t] => t
  | t :: ts => t ++ ' ' :: joinChars ts

/-- Python `" ".join(tokens)`. -/
def sJoin (tokens : List String) : String :=
  String.mk (joinChars (tokens.map String.data))

/-- Python `s.rstrip()`. -/
def pyRstrip (s : String) : String :=
  String.mk ((s.data.reverse.dropWhile isWsC).reverse)

/-- Python `s.strip()`. -/
def pyStrip (s : String) : String :=
  String.mk (((s.data.dropWhile isWsC).reverse.dropWhile isWsC).reverse)

/-- Python `s.startswith(p)`. -/
def pyStartsWith (s p : String) : Bool :=
  p.data.isPrefixOf s.data

/-- Last character of a Python string, if any (`s[-1]` guarded by emptiness). -/
def lastCharOf (s : String) : Option Char :=
  s.data.getLast?

/-- Python `s[:-1]`. -/
def strDropLast (s : String) : String :=
  String.mk s.data.dropLast

/-- Value of a list of ASCII decimal digits. -/
def digitsVal (ds : List Char) : Nat :=
  ds.foldl (fun acc c => acc * 10 + (c.toNat - '0'.toNat)) 0

/-- Python `int(s)` on a digit-only body: `none` unless nonempty all-digits. -/
def pyDigits? (ds : List Char) : Option Nat :=
  if ds ≠ [] && ds.all Char.isDigit then some (digitsVal ds) else none

/-- Python `int(s)` for the ASCII tokens this codec meets: optional single
sign followed by one or more decimal digits. -/
def pyInt? (s : String) : Option Int :=
  match s.data with
  | [] => none
  | c :: ds =>
    if c = '+' then (pyDigits? ds).map Int.ofNat
    else if c = '-' then (pyDigits? ds).map (fun n => -(n : Int))
    else (pyDigits? (c :: ds)).map Int.ofNat

/-- Python `int(s)` as an `Except`, raising `ValueError` like the builtin. -/
def pyIntE (s : String) : Except PyErr Int :=
  match pyInt? s with
  | some i => .ok i
  | none => .error (.valueError ("invalid literal for int() with base 10: " ++ s))

/-- Decimal digit character for `d < 10`. -/
def digitChar (d : Nat) : Char :=
  Char.ofNat ('0'.toNat + d)

/-- Decimal digits of `n` (fuelled so that it reduces definitionally). -/
def natStrGo : Nat → Nat → List Char
  | 0, _ => []
  | fuel + 1, n =>
    if n < 10 then [digitChar n]
    else natStrGo fuel (n / 10) ++ [digitChar (n % 10)]

/-- Decimal representation of a natural number (Python `str` on a `Nat`). -/
def natStr (n : Nat) : String :=
  String.mk (natStrGo (n + 1) n)

/-- Python `str(i)` for an `int`. -/
def intStr (i : Int) : String :=
  if i < 0 then "-" ++ natStr i.natAbs else natStr i.toNat

/-- Lexical acceptance test for Python `float(s)` on the tokens this codec
meets: optional sign, then digits with an optional fractional part or a
leading-dot fractional part, then an optional exponent. -/
def pyFloatOk (s : String) : Bool :=
  let core : List Char → Bool := fun cs =>
    match cs.span Char.isDigit with
    | (ds, []) => ds ≠ []
    | (ds, '.' :: fs) => (ds ≠ [] || fs ≠ []) && fs.all Char.isDigit
    | _ => false
  let mant : List Char → Bool := fun cs =>
    match cs with
    | '+' :: rest => core rest
    | '-' :: rest => core rest
    | rest => core rest
  let expo : List Char → Bool := fun cs =>
    match cs with
    | [] => true
    | 'e' :: '+' :: ds => ds ≠ [] && ds.all Char.isDigit
    | 'e' :: '-' :: ds => ds ≠ [] && ds.all Char.isDigit
    | 'e' :: ds => ds ≠ [] && ds.all Char.isDigit
    | 'E' :: '+' :: ds => ds ≠ [] && ds.all Char.isDigit
    | 'E' :: '-' :: ds => ds ≠ [] && ds.all Char.isDigit
    | 'E' :: ds => ds ≠ [] && ds.all Char.isDigit
    | _ => false
  let (m, e) := s.data.span (fun c => c ≠ 'e' && c ≠ 'E')
  mant m && expo e

/-- Lexical model of `datetime.strptime(s, "%a %b %d %H:%M:%S %Y")`
acceptance: five whitespace-separated fields of the `ctime` shape. -/
def matchesCtime (s : String) : Bool :=
  let isNum : String → Bool := fun t => t.data ≠ [] && t.data.all Char.isDigit
  let weekdays := ["Mon", "Tue", "Wed", "Thu", "Fri", "Sat", "Sun"]
  let months := ["Jan", "Feb", "Mar", "Apr", "May", "Jun", "Jul", "Aug",
                 "Sep", "Oct", "Nov", "Dec"]
  match pySplit s with
  | [w, mo, d, hms, y] =>
    weekdays.contains w && months.contains mo && isNum d &&
      (match hms.data with
       | [h1, h2, ':', m1, m2, ':', s1, s2] =>
         [h1, h2, m1, m2, s1, s2].all Char.isDigit
       | _ => false) && isNum y
  | _ => false

/-! ## Data model (`AcisHeader`, `AcisEntity`, `Record`, `AcisTree`) -/

/-- The `ACIS_VERSION` table, as an association list. -/
def ACIS_VERSION : List (Int × String) :=
  [(400, "ACIS 4.00 NT"), (20800, "ACIS 208.00 NT")]

/-- Lookup in `ACIS_VERSION` (Python `dict[version]`, as an `Option`). -/
def acisVersionLookup (v : Int) : Option String :=
  match ACIS_VERSION.find? (fun p => p.1 = v) with
  | some p => some p.2
  | none => none

/-- Model of the default construction time `datetime.now()`: a fixed
`ctime`-shaped string (no claim depends on the actual clock value). -/
def defaultCreationDate : String := "Thu Jan  1 00:00:00 1970"

/-- The `AcisHeader` dataclass.  `creation_date` carries the `ctime` string of
the datetime, `units_in_mm` carries the `%g`-formatted float string. -/
structure AcisHeader where
  version : Int := 400
  n_records : Int := 0
  n_entities : Int := 0
  history_flag : Int := 0
  product_id : String := "ezdxf ACIS Builder"
  acis_version : String := "ACIS 4.00 NT"
  creation_date : String := defaultCreationDate
  units_in_mm : String := "1"
deriving DecidableEq, Repr

/-- `AcisHeader._header_str`: the length-prefixed line 1, `@`-dialect iff
`version > 400`. -/
def AcisHeader.header_str (h : AcisHeader) : String :=
  if h.version > 400 then
    "@" ++ natStr h.product_id.data.length ++ " " ++ h.product_id ++
      " @" ++ natStr h.acis_version.data.length ++ " " ++ h.acis_version ++
      " @" ++ natStr h.creation_date.data.length ++ " " ++ h.creation_date ++ " "
  else
    natStr h.product_id.data.length ++ " " ++ h.product_id ++
      " " ++ natStr h.acis_version.data.length ++ " " ++ h.acis_version ++
      " " ++ natStr h.creation_date.data.length ++ " " ++ h.creation_date ++ " "

/-- `AcisHeader.dumps`: the three header lines. -/
def AcisHeader.dumps (h : AcisHeader) : List String :=
  [ intStr h.version ++ " " ++ intStr h.n_records ++ " " ++ intStr h.n_entities
      ++ " " ++ intStr h.history_flag ++ " ",
    h.header_str,
    h.units_in_mm ++ " 9.9999999999999995e-007 1e-010 " ]

/-- `AcisHeader.set_version`: coupled setter; `ValueError` on an unknown code
(the `KeyError` of the table lookup is caught and re-raised). -/
def AcisHeader.set_version (h : AcisHeader) (version : Int) : Except PyErr AcisHeader :=
  match acisVersionLookup version with
  | some s => .ok { h with acis_version := s, version := version }
  | none => .error (.valueError ("invalid ACIS version number " ++ intStr version))

/-- A reference held by an entity field: Python `None`, the process-wide
`NULL_PTR` sentinel, or another entity object given by its identity `oid`. -/
inductive ARef where
  | pynone : ARef
  | null : ARef
  | obj (oid : Nat) : ARef
deriving DecidableEq, Repr

/-- One element of an entity's `data` list: a literal string token or an
entity reference (`isinstance(data, AcisEntity)` discriminates in the source). -/
inductive DItem where
  | lit (s : String) : DItem
  | ref (r : ARef) : DItem
deriving DecidableEq, Repr

/-- The `AcisEntity` class.  `oid` makes Python object identity explicit:
distinct objects carry distinct `oid`s, and `ARef.obj oid` is a reference to
the object with that identity. -/
structure AcisEntity where
  oid : Nat
  name : String
  attr_ptr : String := "$-1"
  id : Int := -1
  data : List DItem := []
  attributes : ARef := .pynone
deriving DecidableEq, Repr

/-- A raw record: number plus token list. -/
structure Record where
  num : Int
  tokens : List String
deriving DecidableEq, Repr

/-- `is_ptr`: a token is a pointer iff nonempty and starting with `$`. -/
def is_ptr (s : String) : Bool :=
  match s.data with
  | c :: _ => c = '$'
  | [] => false

/-- The `AcisTree` container. -/
structure AcisTree where
  header : AcisHeader := {}
  bodies : List AcisEntity := []
  entities : List AcisEntity := []
deriving DecidableEq, Repr

/-- `AcisTree.set_entities`: store the sequence, recomputing the derived
`bodies` subsequence. -/
def AcisTree.set_entities (t : AcisTree) (entities : List AcisEntity) : AcisTree :=
  { t with bodies := entities.filter (fun e => e.name = "body"),
           entities := entities }

/-! ## Serializer (`build_str_records`, `dump_sat`) -/

/-- Position of the entity object with identity `n` in a sequence (Python
`entities.index(e)`, which compares by identity for `AcisEntity`). -/
def indexOfOid (entities : List AcisEntity) (n : Nat) : Option Nat :=
  entities.findIdx? (fun e => e.oid = n)

/-- `ptr_str` inside `build_str_records`: `$-1` for the sentinel, else the
positional index; a reference that is not found in the sequence (including
Python `None`) raises `InvalidACISLinkStructure`.  The source interpolates the
referenced entity into the message; the model keeps a fixed message. -/
def ptr_str (entities : List AcisEntity) (r : ARef) : Except PyErr String :=
  match r with
  | .null => .ok "$-1"
  | .obj n =>
    match indexOfOid entities n with
    | some i => .ok ("$" ++ natStr i)
    | none => .error (.linkStructure "entity not in record storage")
  | .pynone => .error (.linkStructure "entity not in record storage")

/-- A Python `for` loop collecting `f x` for each `x`, aborting at the first
exception (explicit so that induction goes through the loop directly). -/
def exceptMapM (f : α → Except PyErr β) : List α → Except PyErr (List β)
  | [] => .ok []
  | x :: xs => do
    let y ← f x
    let ys ← exceptMapM f xs
    .ok (y :: ys)

/-- Serialization of one `data` element: references through `ptr_str`,
literal tokens pass through (Python `str` on a string is the identity). -/
def dataTokenStr (entities : List AcisEntity) : DItem → Except PyErr String
  | .ref r => ptr_str entities r
  | .lit s => .ok s

/-- Token list of one serialized record (name, attribute pointer, id when
`version >= 700`, data tokens, terminator). -/
def buildRecordTokens (entities : List AcisEntity) (version : Int)
    (e : AcisEntity) : Except PyErr (List String) := do
  let aptr ← ptr_str entities e.attributes
  let dtoks ← exceptMapM (dataTokenStr entities) e.data
  .ok ([e.name, aptr] ++ (if version ≥ 700 then [intStr e.id] else []) ++ dtoks ++ ["#"])

/-- `build_str_records`: one space-joined line per entity.  The source is a
generator, but its sole consumer (`dump_sat`) drains it eagerly, so the eager
`Except` model is observationally the same. -/
def build_str_records (entities : List AcisEntity) (version : Int) :
    Except PyErr (List String) :=
  exceptMapM (fun e => (buildRecordTokens entities version e).map sJoin) entities

/-- `AcisTree.dump_sat`: header lines, record lines, end-of-data line.  On a
link error nothing is returned (the Python exception aborts the whole call
before any output is produced). -/
def AcisTree.dump_sat (t : AcisTree) : Except PyErr (List String) := do
  let recs ← build_str_records t.entities t.header.version
  .ok (t.header.dumps ++ recs ++ ["End-of-ACIS-data "])

/-! ## Pointer resolver (`resolve_str_pointers`) -/

/-- Python `dict[int, AcisEntity]` in insertion order. -/
abbrev PyDict : Type := List (Int × AcisEntity)

/-- Python `d[k]` as an `Option`. -/
def dictFind? (d : PyDict) (k : Int) : Option AcisEntity :=
  match d with
  | [] => none
  | (k2, v) :: rest => if k2 = k then some v else dictFind? rest k

/-- Python `d[k] = v`: overwrite in place, else append. -/
def dictInsert (d : PyDict) (k : Int) (v : AcisEntity) : PyDict :=
  match d with
  | [] => [(k, v)]
  | (k2, v2) :: rest =>
    if k2 = k then (k2, v) :: rest else (k2, v2) :: dictInsert rest k v

/-- Python `s[1:]`. -/
def strDrop1 (s : String) : String :=
  String.mk s.data.tail

/-- The inner `ptr` closure of `resolve_str_pointers`: `$-1` resolves to the
sentinel, other pointer tokens integer-parse their payload and look the record
number up in the mapping (`KeyError` when absent); a non-pointer raises the
`"not a pointer"` `ValueError`. -/
def ptrResolve (d : PyDict) (s : String) : Except PyErr ARef :=
  if is_ptr s then do
    let num ← pyIntE (strDrop1 s)
    if num = -1 then .ok ARef.null
    else
      match dictFind? d num with
      | some e => .ok (ARef.obj e.oid)
      | none => .error (.keyError num)
  else .error (.valueError ("not a pointer: " ++ s))

/-- Resolution of one `data` element.  A raw token that is lexically a pointer
is replaced by the resolved reference; other strings stay literal.  An entity
object already sitting in `data` would make Python call `len` on it and raise
`TypeError` inside `is_ptr`. -/
def resolveItem (d : PyDict) : DItem → Except PyErr DItem
  | .lit s => if is_ptr s then (ptrResolve d s).map DItem.ref else .ok (.lit s)
  | .ref _ => .error (.typeError "object of type AcisEntity has no len()")

/-- Resolution of one entity: `attributes` from `attr_ptr` (which is then
reset to `"$-1"`), then each data token.  The `oid` (object identity) is
unchanged: Python mutates the same object. -/
def resolveEntity (d : PyDict) (e : AcisEntity) : Except PyErr AcisEntity := do
  let attrs ← ptrResolve d e.attr_ptr
  let d2 ← exceptMapM (resolveItem d) e.data
  .ok { e with attributes := attrs, attr_ptr := "$-1", data := d2 }

/-- Insert into a key-sorted association list (ascending keys). -/
def insertByKey (p : Int × AcisEntity) : List (Int × AcisEntity) → List (Int × AcisEntity)
  | [] => [p]
  | q :: qs => if p.1 ≤ q.1 then p :: q :: qs else q :: insertByKey p qs

/-- `sorted(d.items())` for distinct keys: sort by ascending key. -/
def sortByKey : List (Int × AcisEntity) → List (Int × AcisEntity)
  | [] => []
  | p :: ps => insertByKey p (sortByKey ps)

/-- One iteration of the resolution loop: resolve the entity, keep its key. -/
def resolveEntry (d : PyDict) (p : Int × AcisEntity) :
    Except PyErr (Int × AcisEntity) := do
  let e2 ← resolveEntity d p.2
  .ok (p.1, e2)

/-- `resolve_str_pointers`: resolve every entity of the mapping, then return
the entities sorted by ascending record number. -/
def resolve_str_pointers (d : PyDict) : Except PyErr (List AcisEntity) := do
  let resolved ← exceptMapM (resolveEntry d) d
  .ok ((sortByKey resolved).map (fun p => p.2))

/-! ## Header parsing (`_parse_header_str`, `parse_sat_header`) -/

/-- The character machine of `_parse_header_str`: `num` accumulates digits,
`collect` counts characters still owed to the current token, `@` is skipped
(when not collecting), a space after digits starts a token of that length. -/
def parseHeaderStrGo : List Char → List Char → Nat → List Char → List String
  | [], _, _, _ => []
  | c :: cs, num, collect, token =>
    if collect > 0 then
      let token2 := token ++ [c]
      if collect - 1 = 0 then String.mk token2 :: parseHeaderStrGo cs num 0 []
      else parseHeaderStrGo cs num (collect - 1) token2
    else if c = '@' then parseHeaderStrGo cs num 0 token
    else if c.isDigit then parseHeaderStrGo cs (num ++ [c]) 0 token
    else if c = ' ' && num ≠ [] then parseHeaderStrGo cs [] (digitsVal num) token
    else parseHeaderStrGo cs num 0 token

/-- `_parse_header_str`: run the machine over the right-stripped line. -/
def parseHeaderStr (s : String) : List String :=
  parseHeaderStrGo (pyRstrip s).data [] 0 []

/-- Python `seq[i]` raising `IndexError` when out of range. -/
def listIdx (l : List String) (i : Nat) : Except PyErr String :=
  match l.get? i with
  | some x => .ok x
  | none => .error .indexError

/-- The `try` block over line-0 counts: fields are assigned left to right and
the first missing or unparsable token aborts the block, leaving that field and
the later ones at their defaults. -/
def parseCounts (tokens : List String) (h : AcisHeader) : AcisHeader :=
  match tokens.get? 1 with
  | none => h
  | some t1 =>
    match pyInt? t1 with
    | none => h
    | some v1 =>
      let h1 := { h with n_records := v1 }
      match tokens.get? 2 with
      | none => h1
      | some t2 =>
        match pyInt? t2 with
        | none => h1
        | some v2 =>
          let h2 := { h1 with n_entities := v2 }
          match tokens.get? 3 with
          | none => h2
          | some t3 =>
            match pyInt? t3 with
            | none => h2
            | some v3 => { h2 with history_flag := v3 }

/-- The `try` block over line-1 tokens: `product_id` then `acis_version`,
stopping at the first missing token. -/
def parseNameFields (tokens : List String) (h : AcisHeader) : AcisHeader :=
  match tokens.get? 0 with
  | none => h
  | some t0 =>
    let h1 := { h with product_id := t0 }
    match tokens.get? 1 with
    | none => h1
    | some t1 => { h1 with acis_version := t1 }

/-- The guarded `strptime` of the creation date: on lexical mismatch the
default construction time is silently kept. -/
def parseDateField (tokens : List String) (h : AcisHeader) : AcisHeader :=
  match tokens.get? 2 with
  | none => h
  | some t2 => if matchesCtime t2 then { h with creation_date := t2 } else h

/-- The `try` block over line-2: `units_in_mm` from the first token when it is
a parsable float, else the default. -/
def parseUnitsField (tokens : List String) (h : AcisHeader) : AcisHeader :=
  match tokens.get? 0 with
  | none => h
  | some t0 => if pyFloatOk t0 then { h with units_in_mm := t0 } else h

/-- `parse_sat_header`: lines 0..2 into an `AcisHeader`, returning the
remaining lines.  Only a missing line or a bad version token is fatal. -/
def parse_sat_header (data : List String) : Except PyErr (AcisHeader × List String) := do
  let line0 ← listIdx data 0
  let tokens0 := pySplit line0
  let t0 ← listIdx tokens0 0
  let v ← pyIntE t0
  let h1 := parseCounts tokens0 { version := v }
  let line1 ← listIdx data 1
  let tokens1 := parseHeaderStr line1
  let h2 := parseDateField tokens1 (parseNameFields tokens1 h1)
  let line2 ← listIdx data 2
  let h3 := parseUnitsField (pySplit line2) h2
  .ok (h3, data.drop 3)

/-! ## Record tokenizer (`_merge_record_strings`, `parse_records`) -/

/-- `_merge_record_strings`: concatenate lines into `#`-terminated records,
skipping blank lines, stopping for good at the end-of-data or history marker,
inserting a single space between concatenated lines when needed. -/
def mergeRecGo : List String → String → List String
  | [], _ => []
  | line :: rest, cur =>
    if line.data.length = 0 then mergeRecGo rest cur
    else if pyStartsWith line "End-of-ACIS-data"
         || pyStartsWith line "Begin-of-ACIS-History-Data" then []
    else
      let cur2 := cur ++ line
      if lastCharOf cur2 = some '#' then cur2 :: mergeRecGo rest ""
      else if lastCharOf cur2 ≠ some ' ' then mergeRecGo rest (cur2 ++ " ")
      else mergeRecGo rest cur2

/-- `_merge_record_strings` entry point. -/
def mergeRecordStrings (data : List String) : List String :=
  mergeRecGo data ""

/-- The loop body of `parse_records`, carrying the running record number. -/
def parseRecordsGo : List String → Int → Except PyErr (List Record)
  | [], _ => .ok []
  | line :: rest, num => do
    let tokens := pySplit line
    let first ← listIdx tokens 0
    let first_token := pyStrip first
    if lastCharOf first_token = some '=' then do
      let num2 ← pyIntE (strDropLast first_token)
      let recs ← parseRecordsGo rest (num2 + 1)
      .ok (Record.mk num2 ((tokens.drop 1).dropLast) :: recs)
    else do
      let recs ← parseRecordsGo rest (num + 1)
      .ok (Record.mk num tokens.dropLast :: recs)

/-- `parse_records`: merge, then split each record, applying `n=` explicit
record-number overrides and dropping the final (terminator) token. -/
def parse_records (data : List String) : Except PyErr (List Record) :=
  parseRecordsGo (mergeRecordStrings data) 0

/-! ## Entity builder (`build_entities`) and `parse_sat` -/

/-- The loop body of `build_entities`.  `oid` is the identity of the next
freshly constructed Python object (each loop iteration constructs one). -/
def buildEntitiesGo : List Record → Int → Nat → PyDict → Except PyErr PyDict
  | [], _, _, d => .ok d
  | r :: rs, version, oid, d => do
    let name ← listIdx r.tokens 0
    let attr ← listIdx r.tokens 1
    if version ≥ 700 then do
      let t2 ← listIdx r.tokens 2
      let id2 ← pyIntE t2
      buildEntitiesGo rs version (oid + 1)
        (dictInsert d r.num
          { oid := oid, name := name, attr_ptr := attr, id := id2,
            data := (r.tokens.drop 3).map DItem.lit })
    else
      buildEntitiesGo rs version (oid + 1)
        (dictInsert d r.num
          { oid := oid, name := name, attr_ptr := attr, id := -1,
            data := (r.tokens.drop 2).map DItem.lit })

/-- `build_entities`: map each record into an unresolved entity keyed by its
record number. -/
def build_entities (records : List Record) (version : Int) : Except PyErr PyDict :=
  buildEntitiesGo records version 0 []

/-- `parse_sat` on a sequence of lines (the string branch of the source only
splits the text into such a sequence first; the `TypeError` branch for other
inputs is outside this model). -/
def parse_sat (data : List String) : Except PyErr AcisTree := do
  let hr ← parse_sat_header data
  let records ← parse_records hr.2
  let entities ← build_entities records hr.1.version
  let resolved ← resolve_str_pointers entities
  .ok (AcisTree.set_entities { header := hr.1 } resolved)

/-! ## Derived predicates, observations and concrete inputs -/

/-- Pointer tokens as the spec defines them lexically: `$` followed by
digits, or the literal `$-1`. -/
def specValidPtrTok (s : String) : Bool :=
  s == "$-1" ||
    (match s.data with
     | '$' :: ds => !ds.isEmpty && ds.all Char.isDigit
     | _ => false)

/-- Counts of header line 0 as assigned by the sequential `try` block, given
the tokens after the version token: the first missing or non-numeric field
and every later field default to 0. -/
def countsSpec (ts : List String) : Int × Int × Int :=
  match (ts.get? 0).bind pyInt? with
  | none => (0, 0, 0)
  | some a =>
    match (ts.get? 1).bind pyInt? with
    | none => (a, 0, 0)
    | some b =>
      match (ts.get? 2).bind pyInt? with
      | none => (a, b, 0)
      | some c => (a, b, c)

/-- An entity reference that is neither the sentinel nor found by identity in
the sequence (the hypothesis of the structural-link error). -/
def hasBadRef (es : List AcisEntity) (e : AcisEntity) : Bool :=
  (match e.attributes with
   | ARef.obj n => (indexOfOid es n).isNone
   | _ => false) ||
  e.data.any (fun d =>
    match d with
    | DItem.ref (ARef.obj n) => (indexOfOid es n).isNone
    | _ => false)

/-- Observation of a reference relative to a sequence: the null sentinel, the
position of the referenced entity, or a dangling reference. -/
inductive RefObs where
  | null : RefObs
  | idx (i : Nat) : RefObs
  | dangling : RefObs
deriving DecidableEq, Repr

/-- Observe a reference by position within `es`. -/
def refObs (es : List AcisEntity) : ARef → RefObs
  | .null => .null
  | .pynone => .dangling
  | .obj n =>
    match indexOfOid es n with
    | some i => .idx i
    | none => .dangling

/-- Observation of a data element: a literal token or an observed reference. -/
inductive DObs where
  | lit (s : String) : DObs
  | ref (r : RefObs) : DObs
deriving DecidableEq, Repr

/-- Observe a data element by position within `es`. -/
def dataObs (es : List AcisEntity) : DItem → DObs
  | .lit s => .lit s
  | .ref r => .ref (refObs es r)

/-- What the round-trip claim compares per position: name, id,
resolved-reference-by-position, and literal data tokens. -/
structure EntityObs where
  name : String
  id : Int
  attr : RefObs
  data : List DObs
deriving DecidableEq, Repr

/-- Observe one entity relative to its containing sequence. -/
def entityObs (es : List AcisEntity) (e : AcisEntity) : EntityObs :=
  { name := e.name, id := e.id, attr := refObs es e.attributes,
    data := e.data.map (dataObs es) }

/-- Observe a whole graph: every entity relative to the graph's sequence. -/
def treeObs (t : AcisTree) : List EntityObs :=
  t.entities.map (entityObs t.entities)

/-- A single whitespace-free nonempty token. -/
def tokenOkB (s : String) : Bool :=
  !s.data.isEmpty && s.data.all (fun c => !isWsC c)

/-- A name that survives the tokenizer: a single token, no `=` suffix (which
would be read as a record-number override), and not opening with either
merge-terminating marker. -/
def nameOkB (s : String) : Bool :=
  tokenOkB s && (lastCharOf s != some '=') &&
    !pyStartsWith s "End-of-ACIS-data" && !pyStartsWith s "Begin-of-ACIS-History-Data"

/-- A reference the serializer can encode: the sentinel or an entity present
by identity in the sequence. -/
def refOkB (es : List AcisEntity) : ARef → Bool
  | .null => true
  | .obj n => (indexOfOid es n).isSome
  | .pynone => false

/-- A literal data token that re-parses as the same literal: a single token
that is not lexically a pointer. -/
def litOkB (s : String) : Bool :=
  tokenOkB s && !is_ptr s

/-- Round-trip validity of one entity (see `validTreeB`). -/
def entityOkB (es : List AcisEntity) (ver : Int) (e : AcisEntity) : Bool :=
  nameOkB e.name && refOkB es e.attributes &&
    e.data.all (fun d =>
      match d with
      | DItem.lit s => litOkB s
      | DItem.ref r => refOkB es r) &&
    (ver ≥ 700 || e.id == -1)

/-- Round-trip validity of a graph: the claim's reference validity plus the
lexical token conditions and the id/version coupling. -/
def validTreeB (t : AcisTree) : Bool :=
  t.entities.all (entityOkB t.entities t.header.version)

/-- Validity exactly as the round-trip claim words it: every reference
resolves within the graph's own sequence or to the null sentinel. -/
def specRefValidB (t : AcisTree) : Bool :=
  t.entities.all (fun e =>
    refOkB t.entities e.attributes &&
      e.data.all (fun d =>
        match d with
        | DItem.ref r => refOkB t.entities r
        | DItem.lit _ => true))

/-- The spec's end-to-end example input. -/
def demoLines : List String :=
  [ "400 0 0 0 ",
    "11 ezdxf ACIS Builder 15 ACIS 4.00 NT 24 Sat Jan  1 00:00:00 2022 ",
    "1 9.9999999999999995e-007 1e-010 ",
    "body $-1 $1 #",
    "wire $0 #",
    "End-of-ACIS-data " ]

/-- The entity graph the end-to-end example parses to. -/
def demoParsedTree : AcisTree :=
  { header := { version := 400, n_records := 0, n_entities := 0, history_flag := 0,
                product_id := "ezdxf ACIS ", acis_version := "ACIS 4.00 NT 24",
                creation_date := defaultCreationDate, units_in_mm := "1" },
    bodies := [ { oid := 0, name := "body", attr_ptr := "$-1", id := -1,
                  data := [DItem.ref (ARef.obj 1)], attributes := ARef.null } ],
    entities := [ { oid := 0, name := "body", attr_ptr := "$-1", id := -1,
                    data := [DItem.ref (ARef.obj 1)], attributes := ARef.null },
                  { oid := 1, name := "wire", attr_ptr := "$-1", id := -1,
                    data := [], attributes := ARef.obj 0 } ] }

/-- Record lines exercising the record-number counter: an explicit override
(`0=`) resets the counter downward. -/
def counterLines : List String :=
  ["a #", "b #", "0= c #", "d #"]

/-- The entity refuting C4 as stated: its `attr_ptr` `"$+0"` is not a valid
pointer token lexically, yet resolution succeeds. -/
def c4Entity : AcisEntity :=
  { oid := 7, name := "body", attr_ptr := "$+0", id := -1, data := [],
    attributes := ARef.pynone }

/-- The numeric fields of header line 0, as one tuple. -/
def countsOf (h : AcisHeader) : Int × Int × Int × Int :=
  (h.version, h.n_records, h.n_entities, h.history_flag)

/-- An entity whose attribute reference names an absent object identity. -/
def c3Entity : AcisEntity :=
  { oid := 0, name := "body", attr_ptr := "$-1", id := -1, data := [],
    attributes := ARef.obj 99 }

/-- A graph containing `c3Entity` (and no entity with identity 99). -/
def c3Tree : AcisTree :=
  { entities := [c3Entity] }

/-- Header line 1 in the plain (`version <= 400`) dialect for the given
product id, version string and date string. -/
def plainDialectLine (p a d : String) : String :=
  natStr p.data.length ++ " " ++ p ++ " " ++ natStr a.data.length ++ " " ++ a ++
    " " ++ natStr d.data.length ++ " " ++ d ++ " "

/-- Header line 1 in the `@`-prefixed (`version > 400`) dialect. -/
def atDialectLine (p a d : String) : String :=
  "@" ++ natStr p.data.length ++ " " ++ p ++ " @" ++ natStr a.data.length ++ " " ++ a ++
    " @" ++ natStr d.data.length ++ " " ++ d ++ " "

/-- A graph that is valid in the claim\'s sense (all references resolve) but
whose literal data token `"$0"` is lexically a pointer. -/
def c1Bad : AcisTree :=
  { entities := [ { oid := 0, name := "body", attr_ptr := "$-1", id := -1,
                    data := [DItem.lit "$0"], attributes := ARef.null } ] }

/-- The lines `c1Bad` dumps to. -/
def c1BadLines : List String :=
  [ "400 0 0 0 ",
    "18 ezdxf ACIS Builder 12 ACIS 4.00 NT 24 Thu Jan  1 00:00:00 1970 ",
    "1 9.9999999999999995e-007 1e-010 ",
    "body $-1 $0 #",
    "End-of-ACIS-data " ]

/-- The pointer token the serializer emits for a reference (meaningful under
`refOkB`; the `getD` default is never reached for valid references). -/
def attrTok (es : List AcisEntity) : ARef → String
  | ARef.null => "$-1"
  | ARef.obj n => "$" ++ natStr ((indexOfOid es n).getD 0)
  | ARef.pynone => ""

/-- The token the serializer emits for one data element. -/
def dTok (es : List AcisEntity) : DItem → String
  | DItem.lit s => s
  | DItem.ref r => attrTok es r

/-- The token list of one serialized record, as a pure function (the value
`buildRecordTokens` returns on a valid graph). -/
def recTokens (es : List AcisEntity) (ver : Int) (e : AcisEntity) : List String :=
  [e.name, attrTok es e.attributes] ++ (if ver ≥ 700 then [intStr e.id] else [])
    ++ e.data.map (dTok es) ++ ["#"]

/-- The serialized line of one record. -/
def recLine (es : List AcisEntity) (ver : Int) (e : AcisEntity) : String :=
  sJoin (recTokens es ver e)

/-- The records `parse_records` produces from clean token lines, numbered
consecutively from `num`. -/
def expRecords (tls : List (List String)) (num : Int) : List Record :=
  match tls with
  | [] => []
  | tl :: rest => Record.mk num tl.dropLast :: expRecords rest (num + 1)

/-- The unresolved entity `build_entities` constructs at position `i` for a
re-parsed record of `e` (serialized against `full`). -/
def expEntity (full : List AcisEntity) (ver : Int) (i : Nat) (e : AcisEntity) : AcisEntity :=
  { oid := i, name := e.name, attr_ptr := attrTok full e.attributes,
    id := if ver ≥ 700 then e.id else -1,
    data := (e.data.map (dTok full)).map DItem.lit, attributes := ARef.pynone }

/-- The mapping `build_entities` produces for the suffix `es` of the original
sequence, starting at position `i`. -/
def expDict (full : List AcisEntity) (ver : Int) : List AcisEntity → Nat → PyDict
  | [], _ => []
  | e :: es, i => (Int.ofNat i, expEntity full ver i e) :: expDict full ver es (i + 1)

/-- A reference of the original graph, re-expressed against the re-parsed
entity sequence (whose object identities are the positions). -/
def refTranslate (full : List AcisEntity) : ARef → ARef
  | ARef.null => ARef.null
  | ARef.obj n => ARef.obj ((indexOfOid full n).getD 0)
  | ARef.pynone => ARef.pynone

/-- A data element of the original graph after dump and re-resolution. -/
def expResolvedItem (full : List AcisEntity) : DItem → DItem
  | DItem.lit s => DItem.lit s
  | DItem.ref r => DItem.ref (refTranslate full r)

/-- The resolved entity the re-parse produces at position `i` for `e`. -/
def expResolvedEntity (full : List AcisEntity) (ver : Int) (i : Nat) (e : AcisEntity) : AcisEntity :=
  { oid := i, name := e.name, attr_ptr := "$-1",
    id := if ver ≥ 700 then e.id else -1,
    data := e.data.map (expResolvedItem full),
    attributes := refTranslate full e.attributes }

/-- The key-entity pairs after the resolution loop, for the suffix `es`
starting at position `i`. -/
def expPairs (full : List AcisEntity) (ver : Int) : List AcisEntity → Nat → List (Int × AcisEntity)
  | [], _ => []
  | e :: es, i => (Int.ofNat i, expResolvedEntity full ver i e) :: expPairs full ver es (i + 1)

/-- A concrete valid two-entity graph (a body holding a literal and a
forward reference to a wire, which refers back to the body). -/
def cwTree : AcisTree :=
  { header := {},
    bodies := [],
    entities :=
      [ { oid := 10, name := "body", attr_ptr := "$-1", id := -1,
          data := [DItem.lit "T", DItem.ref (ARef.obj 11)],
          attributes := ARef.null },
        { oid := 11, name := "wire", attr_ptr := "$-1", id := -1,
          data := [], attributes := ARef.obj 10 } ] }

/-! ## Theorems -/

/-- The two error messages a pointer token can produce are never the same
string (their first characters differ). -/
theorem int_msg_ne_ptr_msg (x y : String) :
    ("invalid literal for int() with base 10: " ++ x) ≠ ("not a pointer: " ++ y) := by
  intro h
  have h2 := congrArg String.data h
  rw [String.data_append, String.data_append] at h2
  have e1 : ("invalid literal for int() with base 10: ").data
      = 'i' :: ("nvalid literal for int() with base 10: ").data := rfl
  have e2 : ("not a pointer: ").data = 'n' :: ("ot a pointer: ").data := rfl
  rw [e1, e2, List.cons_append, List.cons_append] at h2
  exact absurd (List.cons.inj h2).1 (by decide)

/-- `Except` bind on an error short-circuits. -/
theorem exceptBind_error {α β : Type} (e : PyErr) (k : α → Except PyErr β) :
    (Except.error e >>= k) = Except.error e := rfl

/-- `Except` bind on a success applies the continuation. -/
theorem exceptBind_ok {α β : Type} (a : α) (k : α → Except PyErr β) :
    (Except.ok a >>= k : Except PyErr β) = k a := rfl

/-- A non-pointer raises the `"not a pointer"` `ValueError`. -/
theorem ptrResolve_not_ptr (d : PyDict) (s : String) (h : is_ptr s = false) :
    ptrResolve d s = .error (.valueError ("not a pointer: " ++ s)) := by
  simp [ptrResolve, h]

/-- A token that passes `is_ptr` can never produce the `"not a pointer"`
error: its failure modes are the `int()` `ValueError` and `KeyError`. -/
theorem ptrResolve_no_malformed (d : PyDict) (s : String) (h : is_ptr s = true)
    (m : String) :
    ptrResolve d s ≠ .error (.valueError ("not a pointer: " ++ m)) := by
  intro heq
  rw [ptrResolve, if_pos h] at heq
  cases hint : pyInt? (strDrop1 s) with
  | none =>
    simp only [pyIntE, hint, exceptBind_error] at heq
    simp only [Except.error.injEq, PyErr.valueError.injEq] at heq
    exact int_msg_ne_ptr_msg _ _ heq
  | some i =>
    simp only [pyIntE, hint, exceptBind_ok] at heq
    by_cases hi : i = -1
    · rw [if_pos hi] at heq
      exact absurd heq (by simp)
    · rw [if_neg hi] at heq
      cases hf : dictFind? d i with
      | some e => rw [hf] at heq; exact absurd heq (by simp)
      | none => rw [hf] at heq; simp at heq

/-- A pointer token whose record number is absent from the mapping raises
`KeyError` with that number. -/
theorem ptrResolve_keyError (d : PyDict) (s : String) (n : Int)
    (h : is_ptr s = true) (hint : pyInt? (strDrop1 s) = some n) (hne : n ≠ -1)
    (hf : dictFind? d n = none) :
    ptrResolve d s = .error (.keyError n) := by
  rw [ptrResolve, if_pos h]
  simp only [pyIntE, hint, exceptBind_ok, if_neg hne, hf]

/-- `$-1` always resolves to the null sentinel. -/
theorem ptrResolve_null (d : PyDict) : ptrResolve d "$-1" = .ok ARef.null := rfl

/-- A failing attribute resolution propagates out of the whole resolution
pass (singleton mapping). -/
theorem resolve_singleton_attr_error (k : Int) (e : AcisEntity) (err : PyErr)
    (h : ptrResolve [(k, e)] e.attr_ptr = .error err) :
    resolve_str_pointers [(k, e)] = .error err := by
  simp only [resolve_str_pointers, exceptMapM, resolveEntry, resolveEntity, h,
    exceptBind_error, exceptBind_ok]

/-- C4 (amended): during pointer resolution the malformed-pointer
(`"not a pointer"`) error is raised for an `attr_ptr` exactly when it fails
`is_ptr` (empty or not beginning with `$`); a token beginning with `$` never
produces that error for the field, even when it is not lexically `$`+digits
or `$-1` (its payload is integer-parsed instead). -/
theorem claim_C4 (d : PyDict) (s : String) :
    (is_ptr s = false →
      ptrResolve d s = .error (.valueError ("not a pointer: " ++ s))) ∧
    (is_ptr s = true →
      ∀ m : String, ptrResolve d s ≠ .error (.valueError ("not a pointer: " ++ m))) ∧
    (∀ (k : Int) (e : AcisEntity), e.attr_ptr = s → is_ptr s = false →
      resolve_str_pointers [(k, e)] = .error (.valueError ("not a pointer: " ++ s))) := by
  refine ⟨ptrResolve_not_ptr d s, ptrResolve_no_malformed d s, ?_⟩
  intro k e he hnp
  exact resolve_singleton_attr_error k e _ (he ▸ ptrResolve_not_ptr [(k, e)] e.attr_ptr (he ▸ hnp))

/-- Witness for C4 (amended): `"x"` is rejected as malformed, `"$5"` never is. -/
theorem claim_C4_witness :
    ptrResolve [] "x" = .error (.valueError ("not a pointer: " ++ "x")) ∧
    ptrResolve [] "$5" ≠ .error (.valueError ("not a pointer: " ++ "$5")) :=
  ⟨(claim_C4 [] "x").1 rfl, (claim_C4 [] "$5").2.1 rfl "$5"⟩

/-- Counterexample to C4 as stated: `"$+0"` is not lexically a valid pointer
token (`$`+digits or `$-1`), yet resolving an entity whose `attr_ptr` is
`"$+0"` raises no error at all — `int("+0")` parses and record 0 is present. -/
theorem claim_C4_counterexample :
    specValidPtrTok "$+0" = false ∧
    resolve_str_pointers [((0 : Int), c4Entity)] =
      .ok [{ c4Entity with attributes := ARef.obj 7, attr_ptr := "$-1" }] :=
  ⟨rfl, rfl⟩

/-- C5: a pointer `$n` (`n ≠ -1`) whose record number is absent from the
mapping fails with the unresolved-reference `KeyError`, which propagates out
of resolution un-recovered; `$-1` always resolves to the null sentinel. -/
theorem claim_C5 :
    (∀ d : PyDict, ptrResolve d "$-1" = .ok ARef.null) ∧
    (∀ (d : PyDict) (s : String) (n : Int),
      is_ptr s = true → pyInt? (strDrop1 s) = some n → n ≠ -1 →
      dictFind? d n = none → ptrResolve d s = .error (.keyError n)) ∧
    (∀ (k : Int) (e : AcisEntity) (n : Int),
      is_ptr e.attr_ptr = true → pyInt? (strDrop1 e.attr_ptr) = some n → n ≠ -1 →
      dictFind? [(k, e)] n = none →
      resolve_str_pointers [(k, e)] = .error (.keyError n)) := by
  refine ⟨ptrResolve_null, ptrResolve_keyError, ?_⟩
  intro k e n h hint hne hf
  exact resolve_singleton_attr_error k e _ (ptrResolve_keyError _ _ n h hint hne hf)

/-- Witness for C5 at `$5` against an empty mapping and a singleton mapping. -/
theorem claim_C5_witness :
    ptrResolve [] "$-1" = .ok ARef.null ∧
    ptrResolve [] "$5" = .error (.keyError 5) ∧
    resolve_str_pointers [((0 : Int), { oid := 0, name := "x", attr_ptr := "$5" })] =
      .error (.keyError 5) :=
  ⟨claim_C5.1 [], claim_C5.2.1 [] "$5" 5 rfl rfl (by decide) rfl,
   claim_C5.2.2 0 { oid := 0, name := "x", attr_ptr := "$5" } 5 rfl rfl (by decide) rfl⟩

/-- C8: `set_version 400` stores the coupled pair; an unknown code such as
999 raises the invalid-version `ValueError`; any successful `set_version`
leaves `acis_version` equal to the table entry for the stored code. -/
theorem claim_C8 :
    (∀ h : AcisHeader, h.set_version 400 =
        .ok { h with acis_version := "ACIS 4.00 NT", version := 400 }) ∧
    (∀ h : AcisHeader, h.set_version 999 =
        .error (.valueError ("invalid ACIS version number " ++ intStr 999))) ∧
    (∀ (h h2 : AcisHeader) (v : Int), h.set_version v = .ok h2 →
        acisVersionLookup h2.version = some h2.acis_version) := by
  refine ⟨fun h => rfl, fun h => rfl, ?_⟩
  intro h h2 v hset
  rw [AcisHeader.set_version] at hset
  cases hlk : acisVersionLookup v with
  | none => rw [hlk] at hset; exact absurd hset (by simp)
  | some s =>
    rw [hlk] at hset
    injection hset with hset
    rw [← hset]
    exact hlk

/-- Witness for C8 at the default header. -/
theorem claim_C8_witness :
    ({} : AcisHeader).set_version 400 =
      .ok { ({} : AcisHeader) with acis_version := "ACIS 4.00 NT", version := 400 } ∧
    ({} : AcisHeader).set_version 999 =
      .error (.valueError ("invalid ACIS version number " ++ intStr 999)) ∧
    acisVersionLookup
        ({ ({} : AcisHeader) with acis_version := "ACIS 4.00 NT", version := 400 }).version
      = some ({ ({} : AcisHeader) with acis_version := "ACIS 4.00 NT", version := 400 }).acis_version :=
  ⟨claim_C8.1 {}, claim_C8.2.1 {}, claim_C8.2.2 {} _ 400 (claim_C8.1 {})⟩

/-- C2: parsing the spec's six-line example yields exactly two entities —
`entities[0]` named `"body"` with `attributes` the null sentinel and `data[0]`
a reference to the object that is `entities[1]`; `entities[1]` named `"wire"`
with `attributes` referencing `entities[0]` — and dumping that graph emits
the pointer tokens `"$-1"`, `"$1"`, `"$0"` again in those positions. -/
theorem claim_C2 :
    parse_sat demoLines = .ok demoParsedTree ∧
    demoParsedTree.entities.length = 2 ∧
    (demoParsedTree.entities.map AcisEntity.name) = ["body", "wire"] ∧
    ((demoParsedTree.entities.get? 0).map AcisEntity.attributes) = some ARef.null ∧
    ((demoParsedTree.entities.get? 0).map AcisEntity.data) = some [DItem.ref (ARef.obj 1)] ∧
    ((demoParsedTree.entities.get? 1).map AcisEntity.oid) = some 1 ∧
    ((demoParsedTree.entities.get? 1).map AcisEntity.attributes) = some (ARef.obj 0) ∧
    ((demoParsedTree.entities.get? 0).map AcisEntity.oid) = some 0 ∧
    demoParsedTree.dump_sat = .ok
      [ "400 0 0 0 ",
        "11 ezdxf ACIS  15 ACIS 4.00 NT 24 24 Thu Jan  1 00:00:00 1970 ",
        "1 9.9999999999999995e-007 1e-010 ",
        "body $-1 $1 #",
        "wire $0 #",
        "End-of-ACIS-data " ] :=
  ⟨rfl, rfl, rfl, rfl, rfl, rfl, rfl, rfl, rfl⟩

/-- Counterexample to C6 as stated: in `"400 abc 5 1 "` the field `n_entities`
carries the well-formed numeric token `"5"`, yet it is defaulted to 0 because
the earlier field `"abc"` aborted the whole `try` block. -/
theorem claim_C6_counterexample :
    (parse_sat_header ["400 abc 5 1 ", "", ""]).map
        (fun p => (p.1.version, p.1.n_records, p.1.n_entities, p.1.history_flag))
      = .ok (400, 0, 0, 0) ∧
    pyInt? "5" = some 5 ∧ ((0 : Int) = 5 → False) :=
  ⟨rfl, rfl, by decide⟩

/-- Counterexample to C7 as stated: on `["a #", "b #", "0= c #", "d #"]` the
records receive numbers `[0, 1, 0, 1]` — record 3 (`"d"`, no override) gets
1, not the value 3 of a strictly monotonically increasing counter starting at
0 that advances by one for every record; and the assigned numbers are not
strictly increasing. -/
theorem claim_C7_counterexample :
    parse_records counterLines = .ok
      [ Record.mk 0 ["a"], Record.mk 1 ["b"], Record.mk 0 ["c"], Record.mk 1 ["d"] ] ∧
    (([0, 1, 0, 1] : List Int).Pairwise (· < ·) → False) ∧
    (((1 : Int) = 3) → False) :=
  ⟨rfl, by decide, by decide⟩

/-- `parseCounts` on the tokens after the version token computes `countsSpec`. -/
theorem parseCounts_eq (t0 : String) (ts : List String) (v : Int) :
    parseCounts (t0 :: ts) { version := v } =
      { version := v, n_records := (countsSpec ts).1,
        n_entities := (countsSpec ts).2.1, history_flag := (countsSpec ts).2.2 } := by
  rw [parseCounts, countsSpec]
  simp only [List.get?_cons_succ]
  rcases h0 : ts.get? 0 with _ | t1
  · simp only [h0, Option.none_bind]
  · simp only [h0, Option.some_bind]
    rcases h1 : pyInt? t1 with _ | a
    · simp only [h1]
    · simp only [h1]
      rcases h2 : ts.get? 1 with _ | t2
      · simp only [h2, Option.none_bind]
      · simp only [h2, Option.some_bind]
        rcases h3 : pyInt? t2 with _ | b
        · simp only [h3]
        · simp only [h3]
          rcases h4 : ts.get? 2 with _ | t3
          · simp only [h4, Option.none_bind]
          · simp only [h4, Option.some_bind]
            rcases h5 : pyInt? t3 with _ | c
            · simp only [h5]
            · simp only [h5]

/-- Line-1 name fields never touch the line-0 numeric fields. -/
theorem parseNameFields_counts (ts : List String) (h : AcisHeader) :
    countsOf (parseNameFields ts h) = countsOf h := by
  rw [parseNameFields]
  split
  · rfl
  · split <;> rfl

/-- The creation-date field never touches the line-0 numeric fields. -/
theorem parseDateField_counts (ts : List String) (h : AcisHeader) :
    countsOf (parseDateField ts h) = countsOf h := by
  rw [parseDateField]
  split
  · rfl
  · split <;> rfl

/-- The units field never touches the line-0 numeric fields. -/
theorem parseUnitsField_counts (ts : List String) (h : AcisHeader) :
    countsOf (parseUnitsField ts h) = countsOf h := by
  rw [parseUnitsField]
  split
  · rfl
  · split <;> rfl

/-- Lines 1 and 2 of the header never touch the line-0 numeric fields. -/
theorem parse_chain_counts (l1 l2 : String) (h : AcisHeader) :
    countsOf (parseUnitsField (pySplit l2)
      (parseDateField (parseHeaderStr l1) (parseNameFields (parseHeaderStr l1) h)))
      = countsOf h :=
  (parseUnitsField_counts _ _).trans
    ((parseDateField_counts _ _).trans (parseNameFields_counts _ _))

/-- C6 (amended): header line-0 parsing never fails when the version token is
numeric; the counts are assigned left to right and the first missing or
non-numeric field aborts the `try` block, defaulting that field and every
later one to 0, while the fields before it keep their parsed values
(`countsSpec`). -/
theorem claim_C6 (line0 l1 l2 : String) (rest : List String)
    (t0 : String) (ts : List String) (v : Int)
    (hsplit : pySplit line0 = t0 :: ts) (hv : pyInt? t0 = some v) :
    ∃ h : AcisHeader,
      parse_sat_header (line0 :: l1 :: l2 :: rest) = .ok (h, rest) ∧
      h.version = v ∧
      (h.n_records, h.n_entities, h.history_flag) = countsSpec ts := by
  rw [parse_sat_header]
  have l0 : listIdx (line0 :: l1 :: l2 :: rest) 0 = .ok line0 := rfl
  have l1x : listIdx (line0 :: l1 :: l2 :: rest) 1 = .ok l1 := rfl
  have l2x : listIdx (line0 :: l1 :: l2 :: rest) 2 = .ok l2 := rfl
  have lt0 : listIdx (t0 :: ts) 0 = .ok t0 := rfl
  simp only [l0, l1x, l2x, exceptBind_ok, hsplit, lt0, pyIntE, hv,
    List.drop_succ_cons, List.drop_zero]
  rw [parseCounts_eq]
  refine ⟨_, rfl, ?_, ?_⟩ <;>
    (have hC := parse_chain_counts l1 l2
      { version := v, n_records := (countsSpec ts).1,
        n_entities := (countsSpec ts).2.1, history_flag := (countsSpec ts).2.2 };
     simp only [countsOf, Prod.mk.injEq] at hC)
  · exact hC.1
  · refine Prod.ext hC.2.1 (Prod.ext hC.2.2.1 hC.2.2.2)

/-- Witness for C6 (amended) at the spec's tolerance example
`"400 abc xyz qrs "`. -/
theorem claim_C6_witness :
    ∃ h : AcisHeader,
      parse_sat_header ["400 abc xyz qrs ", "", ""] = .ok (h, []) ∧
      h.version = 400 ∧
      (h.n_records, h.n_entities, h.history_flag) = countsSpec ["abc", "xyz", "qrs"] :=
  claim_C6 "400 abc xyz qrs " "" "" [] "400" ["abc", "xyz", "qrs"] 400 rfl rfl

/-- Inversion for the `Except` form of `int()`. -/
theorem pyIntE_ok {s : String} {i : Int} (h : pyIntE s = .ok i) :
    pyInt? s = some i := by
  rw [pyIntE] at h
  cases hx : pyInt? s with
  | none => rw [hx] at h; cases h
  | some j => rw [hx] at h; injection h with h; rw [h]

/-- Loop invariant of `parse_records`: every record's tokens are its split
line minus the optional override token and minus the final (terminator)
token; an override record's number is the parsed `n=` digits; a non-override
record's number is the carried counter — `num` for the first record, previous
record's number plus one after that. -/
theorem parseRecordsGo_spec (ls : List String) (num : Int) (rs : List Record)
    (hp : parseRecordsGo ls num = .ok rs) :
    rs.length = ls.length ∧
    (∀ (i : Nat) (line : String) (rec : Record),
      ls.get? i = some line → rs.get? i = some rec →
      (if lastCharOf (pyStrip ((pySplit line).headI)) = some '=' then
        pyInt? (strDropLast (pyStrip ((pySplit line).headI))) = some rec.num ∧
        rec.tokens = ((pySplit line).drop 1).dropLast
       else
        rec.tokens = (pySplit line).dropLast ∧
        (i = 0 → rec.num = num) ∧
        (∀ (j : Nat) (prev : Record), i = j + 1 → rs.get? j = some prev →
          rec.num = prev.num + 1))) := by
  induction ls generalizing num rs with
  | nil =>
    rw [parseRecordsGo] at hp
    injection hp with hp
    subst hp
    exact ⟨rfl, fun i line rec h => by cases h⟩
  | cons line rest ih =>
    rw [parseRecordsGo] at hp
    rcases hsp : pySplit line with _ | ⟨ft, fts⟩
    · rw [hsp] at hp
      cases hp
    · rw [hsp] at hp
      have hfi : listIdx (ft :: fts) 0 = .ok ft := rfl
      rw [hfi, exceptBind_ok] at hp
      by_cases hlc : lastCharOf (pyStrip ft) = some '='
      · rw [if_pos hlc] at hp
        cases hn2 : pyIntE (strDropLast (pyStrip ft)) with
        | error e => rw [hn2, exceptBind_error] at hp; cases hp
        | ok n2 =>
          rw [hn2, exceptBind_ok] at hp
          cases hrec : parseRecordsGo rest (n2 + 1) with
          | error e => rw [hrec, exceptBind_error] at hp; cases hp
          | ok recs =>
            rw [hrec, exceptBind_ok] at hp
            injection hp with hp
            subst hp
            obtain ⟨ihl, ihs⟩ := ih (n2 + 1) recs hrec
            refine ⟨by simp [ihl], ?_⟩
            intro i l rec hl hr
            cases i with
            | zero =>
              rw [List.get?_cons_zero] at hl hr
              injection hl with hl
              injection hr with hr
              subst hl; subst hr
              rw [hsp]
              simp only [List.headI]
              rw [if_pos hlc]
              exact ⟨pyIntE_ok hn2, by simp⟩
            | succ j =>
              rw [List.get?_cons_succ] at hl hr
              have := ihs j l rec hl hr
              split at this
              · rw [if_pos (by assumption)]
                exact this
              · rw [if_neg (by assumption)]
                obtain ⟨ht, h0, hsucc⟩ := this
                refine ⟨ht, by omega, ?_⟩
                intro j2 prev hj2 hprev
                have hj2' : j = j2 := by omega
                subst hj2'
                cases j with
                | zero =>
                  rw [List.get?_cons_zero] at hprev
                  injection hprev with hprev
                  rw [h0 rfl, ← hprev]
                | succ k =>
                  rw [List.get?_cons_succ] at hprev
                  exact hsucc k prev rfl hprev
      · rw [if_neg hlc] at hp
        cases hrec : parseRecordsGo rest (num + 1) with
        | error e => rw [hrec, exceptBind_error] at hp; cases hp
        | ok recs =>
          rw [hrec, exceptBind_ok] at hp
          injection hp with hp
          subst hp
          obtain ⟨ihl, ihs⟩ := ih (num + 1) recs hrec
          refine ⟨by simp [ihl], ?_⟩
          intro i l rec hl hr
          cases i with
          | zero =>
            rw [List.get?_cons_zero] at hl hr
            injection hl with hl
            injection hr with hr
            subst hl; subst hr
            rw [hsp]
            simp only [List.headI]
            rw [if_neg hlc]
            refine ⟨by simp, by simp, ?_⟩
            intro j prev hj
            omega
          | succ j =>
            rw [List.get?_cons_succ] at hl hr
            have := ihs j l rec hl hr
            split at this
            · rw [if_pos (by assumption)]
              exact this
            · rw [if_neg (by assumption)]
              obtain ⟨ht, h0, hsucc⟩ := this
              refine ⟨ht, by omega, ?_⟩
              intro j2 prev hj2 hprev
              have hj2' : j = j2 := by omega
              subst hj2'
              cases j with
              | zero =>
                rw [List.get?_cons_zero] at hprev
                injection hprev with hprev
                rw [h0 rfl, ← hprev]
              | succ k =>
                rw [List.get?_cons_succ] at hprev
                exact hsucc k prev rfl hprev

/-- C7 (amended): in the split pass, a record whose first token ends with `=`
receives the integer parsed from that token minus its `=` and the token is
discarded; every other record receives one more than the previous record's
number (the counter is set by overrides, so numbers need not be distinct or
increasing), the first record receiving 0; and the final (terminator) token
is dropped from every record's token list. -/
theorem claim_C7 (lines : List String) (rs : List Record)
    (hp : parse_records lines = .ok rs) :
    rs.length = (mergeRecordStrings lines).length ∧
    (∀ (i : Nat) (line : String) (rec : Record),
      (mergeRecordStrings lines).get? i = some line → rs.get? i = some rec →
      (if lastCharOf (pyStrip ((pySplit line).headI)) = some '=' then
        pyInt? (strDropLast (pyStrip ((pySplit line).headI))) = some rec.num ∧
        rec.tokens = ((pySplit line).drop 1).dropLast
       else
        rec.tokens = (pySplit line).dropLast ∧
        (i = 0 → rec.num = 0) ∧
        (∀ (j : Nat) (prev : Record), i = j + 1 → rs.get? j = some prev →
          rec.num = prev.num + 1))) :=
  parseRecordsGo_spec (mergeRecordStrings lines) 0 rs hp

/-- Witness for C7 (amended) on the counter-reset input. -/
theorem claim_C7_witness :
    parse_records counterLines = .ok
      [Record.mk 0 ["a"], Record.mk 1 ["b"], Record.mk 0 ["c"], Record.mk 1 ["d"]] ∧
    ([Record.mk 0 ["a"], Record.mk 1 ["b"], Record.mk 0 ["c"], Record.mk 1 ["d"]].length
      = (mergeRecordStrings counterLines).length) :=
  ⟨rfl, (claim_C7 counterLines _ rfl).1⟩

/-- `ptr_str` fails only with the structural-link error. -/
theorem ptr_str_error_is_link (es : List AcisEntity) (r : ARef) (err : PyErr)
    (h : ptr_str es r = .error err) :
    err = .linkStructure "entity not in record storage" := by
  cases r with
  | null => cases h
  | pynone => injection h with h; rw [h]
  | obj n =>
    rw [ptr_str] at h
    cases hf : indexOfOid es n with
    | some i => rw [hf] at h; cases h
    | none => rw [hf] at h; injection h with h; rw [h]

/-- Data-token serialization fails only with the structural-link error. -/
theorem dataTokenStr_error_is_link (es : List AcisEntity) (d : DItem) (err : PyErr)
    (h : dataTokenStr es d = .error err) :
    err = .linkStructure "entity not in record storage" := by
  cases d with
  | lit s => cases h
  | ref r => exact ptr_str_error_is_link es r err h

/-- A member that fails makes the whole loop fail, provided every possible
member failure carries the same error value. -/
theorem exceptMapM_error_of_mem {α β : Type} (f : α → Except PyErr β)
    (xs : List α) (x : α) (err0 : PyErr) (hx : x ∈ xs) (hfx : f x = .error err0)
    (huni : ∀ y ∈ xs, ∀ e, f y = .error e → e = err0) :
    exceptMapM f xs = .error err0 := by
  induction xs with
  | nil => cases hx
  | cons y ys ih =>
    rw [exceptMapM]
    cases hfy : f y with
    | error e =>
      rw [exceptBind_error]
      rw [huni y (List.mem_cons_self y ys) e hfy]
    | ok b =>
      rw [exceptBind_ok]
      rcases List.mem_cons.mp hx with hxy | hxs
      · subst hxy; rw [hfy] at hfx; cases hfx
      · rw [ih hxs (fun z hz e he => huni z (List.mem_cons_of_mem y hz) e he),
          exceptBind_error]

/-- A failing loop has a failing member. -/
theorem exceptMapM_error_src {α β : Type} (f : α → Except PyErr β)
    (xs : List α) (err : PyErr) (h : exceptMapM f xs = .error err) :
    ∃ y ∈ xs, f y = .error err := by
  induction xs with
  | nil => cases h
  | cons y ys ih =>
    rw [exceptMapM] at h
    cases hfy : f y with
    | error e =>
      rw [hfy, exceptBind_error] at h
      injection h with h
      exact ⟨y, List.mem_cons_self y ys, by rw [hfy, h]⟩
    | ok b =>
      rw [hfy, exceptBind_ok] at h
      cases hys : exceptMapM f ys with
      | error e =>
        rw [hys, exceptBind_error] at h
        injection h with h
        subst h
        obtain ⟨z, hz, hfz⟩ := ih hys
        exact ⟨z, List.mem_cons_of_mem y hz, hfz⟩
      | ok bs => rw [hys, exceptBind_ok] at h; cases h

/-- Record serialization fails only with the structural-link error. -/
theorem buildRecord_error_is_link (es : List AcisEntity) (ver : Int)
    (e : AcisEntity) (err : PyErr)
    (h : buildRecordTokens es ver e = .error err) :
    err = .linkStructure "entity not in record storage" := by
  rw [buildRecordTokens] at h
  cases ha : ptr_str es e.attributes with
  | error e1 =>
    rw [ha, exceptBind_error] at h
    injection h with h
    subst h
    exact ptr_str_error_is_link es e.attributes _ ha
  | ok a =>
    rw [ha, exceptBind_ok] at h
    cases hd : exceptMapM (dataTokenStr es) e.data with
    | error e2 =>
      rw [hd, exceptBind_error] at h
      injection h with h
      subst h
      obtain ⟨d, _, hdd⟩ := exceptMapM_error_src _ _ _ hd
      exact dataTokenStr_error_is_link es d _ hdd
    | ok ds => rw [hd, exceptBind_ok] at h; cases h

/-- An entity with a dangling reference cannot be serialized: its record
build fails with the structural-link error. -/
theorem buildRecord_fails_of_bad (es : List AcisEntity) (ver : Int)
    (e : AcisEntity) (hbad : hasBadRef es e = true) :
    buildRecordTokens es ver e = .error (.linkStructure "entity not in record storage") := by
  rw [hasBadRef, Bool.or_eq_true] at hbad
  rw [buildRecordTokens]
  cases ha : ptr_str es e.attributes with
  | error e1 =>
    rw [exceptBind_error, ptr_str_error_is_link es e.attributes e1 ha]
  | ok a =>
    rw [exceptBind_ok]
    rcases hbad with hattr | hdata
    · exfalso
      cases hr : e.attributes with
      | null => rw [hr] at hattr; simp at hattr
      | pynone => rw [hr] at hattr; simp at hattr
      | obj n =>
        rw [hr] at hattr ha
        have hnone : indexOfOid es n = none := by simpa using hattr
        rw [ptr_str, hnone] at ha
        cases ha
    · rw [List.any_eq_true] at hdata
      obtain ⟨d, hd, hbd⟩ := hdata
      have hfail : dataTokenStr es d = .error (.linkStructure "entity not in record storage") := by
        cases d with
        | lit s => simp at hbd
        | ref r =>
          cases r with
          | null => simp at hbd
          | pynone => rfl
          | obj n =>
            have hnone : indexOfOid es n = none := by simpa using hbd
            rw [dataTokenStr, ptr_str, hnone]
      rw [exceptMapM_error_of_mem (dataTokenStr es) e.data d _ hd hfail
        (fun y hy e2 he2 => dataTokenStr_error_is_link es y e2 he2),
        exceptBind_error]

/-- C3: a graph holding (anywhere — `attributes` or a data element) a
reference to an entity that is neither the null sentinel nor present by
identity in its own sequence cannot be dumped: `dump_sat` fails with the
structural-link error and returns no lines at all. -/
theorem claim_C3 (t : AcisTree) (e : AcisEntity) (he : e ∈ t.entities)
    (hbad : hasBadRef t.entities e = true) :
    t.dump_sat = .error (.linkStructure "entity not in record storage") := by
  rw [AcisTree.dump_sat]
  have hb : build_str_records t.entities t.header.version =
      .error (.linkStructure "entity not in record storage") := by
    rw [build_str_records]
    refine exceptMapM_error_of_mem _ _ e _ he ?_ ?_
    · rw [buildRecord_fails_of_bad t.entities t.header.version e hbad]
      rfl
    · intro y hy e2 he2
      cases hby : buildRecordTokens t.entities t.header.version y with
      | error e3 =>
        rw [hby] at he2
        injection he2 with he2
        subst he2
        exact buildRecord_error_is_link _ _ _ _ hby
      | ok toks => rw [hby] at he2; cases he2
  rw [hb, exceptBind_error]

/-- Witness for C3: a single entity whose attribute reference names an
object identity absent from the sequence. -/
theorem claim_C3_witness :
    c3Entity ∈ c3Tree.entities ∧ hasBadRef c3Tree.entities c3Entity = true ∧
    c3Tree.dump_sat = .error (.linkStructure "entity not in record storage") :=
  ⟨List.mem_cons_self c3Entity [], rfl,
   claim_C3 c3Tree c3Entity (List.mem_cons_self c3Entity []) rfl⟩

/-- A successful lookup returns a pair of the dictionary. -/
theorem dictFind?_mem (d : PyDict) (k : Int) (v : AcisEntity)
    (h : dictFind? d k = some v) : (k, v) ∈ d := by
  induction d with
  | nil => cases h
  | cons p rest ih =>
    rw [dictFind?] at h
    by_cases hk : p.1 = k
    · subst hk
      rw [if_pos rfl] at h
      injection h with h
      subst h
      exact List.mem_cons.mpr (Or.inl rfl)
    · rw [if_neg hk] at h
      exact List.mem_cons_of_mem p (ih h)

/-- Every output element of a successful loop comes from an input element. -/
theorem exceptMapM_ok_mem {α β : Type} (f : α → Except PyErr β)
    (xs : List α) (ys : List β) (h : exceptMapM f xs = .ok ys) :
    ∀ y ∈ ys, ∃ x ∈ xs, f x = .ok y := by
  induction xs generalizing ys with
  | nil =>
    rw [exceptMapM] at h
    injection h with h
    subst h
    intro y hy
    cases hy
  | cons x xs ih =>
    rw [exceptMapM] at h
    cases hfx : f x with
    | error e => rw [hfx, exceptBind_error] at h; cases h
    | ok b =>
      rw [hfx, exceptBind_ok] at h
      cases hxs : exceptMapM f xs with
      | error e => rw [hxs, exceptBind_error] at h; cases h
      | ok bs =>
        rw [hxs, exceptBind_ok] at h
        injection h with h
        subst h
        intro y hy
        rcases List.mem_cons.mp hy with hyb | hys
        · exact ⟨x, List.mem_cons_self x xs, by rw [hfx, hyb]⟩
        · obtain ⟨x2, hx2, hfx2⟩ := ih bs hxs y hys
          exact ⟨x2, List.mem_cons_of_mem x hx2, hfx2⟩

/-- Every input element of a successful loop yields some output element. -/
theorem exceptMapM_ok_forward {α β : Type} (f : α → Except PyErr β)
    (xs : List α) (ys : List β) (h : exceptMapM f xs = .ok ys) :
    ∀ x ∈ xs, ∃ y ∈ ys, f x = .ok y := by
  induction xs generalizing ys with
  | nil => intro x hx; cases hx
  | cons x xs ih =>
    rw [exceptMapM] at h
    cases hfx : f x with
    | error e => rw [hfx, exceptBind_error] at h; cases h
    | ok b =>
      rw [hfx, exceptBind_ok] at h
      cases hxs : exceptMapM f xs with
      | error e => rw [hxs, exceptBind_error] at h; cases h
      | ok bs =>
        rw [hxs, exceptBind_ok] at h
        injection h with h
        subst h
        intro x2 hx2
        rcases List.mem_cons.mp hx2 with hxx | hxs2
        · exact ⟨b, List.mem_cons_self b bs, by rw [hxx, hfx]⟩
        · obtain ⟨y, hy, hfy⟩ := ih bs hxs x2 hxs2
          exact ⟨y, List.mem_cons_of_mem b hy, hfy⟩

/-- Membership through sorted insertion. -/
theorem mem_insertByKey (p q : Int × AcisEntity) (l : List (Int × AcisEntity)) :
    q ∈ insertByKey p l ↔ q = p ∨ q ∈ l := by
  induction l with
  | nil => simp [insertByKey]
  | cons r rest ih =>
    rw [insertByKey]
    by_cases hle : p.1 ≤ r.1
    · rw [if_pos hle]
      simp [List.mem_cons]
    · rw [if_neg hle]
      simp only [List.mem_cons, ih]
      tauto

/-- Membership through `sorted(d.items())`. -/
theorem mem_sortByKey (q : Int × AcisEntity) (l : List (Int × AcisEntity)) :
    q ∈ sortByKey l ↔ q ∈ l := by
  induction l with
  | nil => simp [sortByKey]
  | cons p rest ih =>
    rw [sortByKey, mem_insertByKey]
    simp [List.mem_cons, ih]

/-- A resolved reference is the sentinel or names the identity of a value of
the mapping. -/
theorem ptrResolve_ok_ref (d : PyDict) (s : String) (r : ARef)
    (h : ptrResolve d s = .ok r) :
    r = ARef.null ∨ ∃ p ∈ d, r = ARef.obj p.2.oid := by
  rw [ptrResolve] at h
  by_cases hip : is_ptr s = true
  · rw [if_pos hip] at h
    cases hint : pyIntE (strDrop1 s) with
    | error e => rw [hint, exceptBind_error] at h; cases h
    | ok n =>
      rw [hint, exceptBind_ok] at h
      by_cases hn : n = -1
      · rw [if_pos hn] at h
        injection h with h
        exact Or.inl h.symm
      · rw [if_neg hn] at h
        cases hf : dictFind? d n with
        | some e2 =>
          rw [hf] at h
          injection h with h
          exact Or.inr ⟨(n, e2), dictFind?_mem d n e2 hf, h.symm⟩
        | none => rw [hf] at h; cases h
  · rw [if_neg hip] at h
    cases h

/-- Resolution of one entity: inversion giving the resolved fields. -/
theorem resolveEntity_ok (d : PyDict) (e e2 : AcisEntity)
    (h : resolveEntity d e = .ok e2) :
    e2.oid = e.oid ∧
    ptrResolve d e.attr_ptr = .ok e2.attributes ∧
    exceptMapM (resolveItem d) e.data = .ok e2.data := by
  rw [resolveEntity] at h
  cases ha : ptrResolve d e.attr_ptr with
  | error e1 => rw [ha, exceptBind_error] at h; cases h
  | ok attrs =>
    rw [ha, exceptBind_ok] at h
    cases hd : exceptMapM (resolveItem d) e.data with
    | error e1 => rw [hd, exceptBind_error] at h; cases h
    | ok d2 =>
      rw [hd, exceptBind_ok] at h
      injection h with h
      subst h
      exact ⟨rfl, rfl, rfl⟩

/-- A resolved data element that is a reference came from `ptrResolve`. -/
theorem resolveItem_ok_ref (d : PyDict) (it out : DItem) (r : ARef)
    (h : resolveItem d it = .ok out) (hout : out = DItem.ref r) :
    ptrResolve d (match it with | DItem.lit s => s | DItem.ref _ => "") = .ok r ∨
      (out = it ∧ ∀ r2 : ARef, it ≠ DItem.ref r2) := by
  cases it with
  | ref r2 => rw [resolveItem] at h; cases h
  | lit s =>
    rw [resolveItem] at h
    by_cases hip : is_ptr s = true
    · rw [if_pos hip] at h
      left
      cases hres : ptrResolve d s with
      | error e1 => rw [hres] at h; cases h
      | ok r3 =>
        rw [hres] at h
        injection h with h
        subst h
        injection hout with hout
        subst hout
        rfl
    · rw [if_neg hip] at h
      injection h with h
      subst h
      cases hout

/-- The references of every entity produced by a successful resolution pass
are the null sentinel or the identity of an entity of the output sequence. -/
theorem resolve_refs_closed (d : PyDict) (R : List AcisEntity)
    (h : resolve_str_pointers d = .ok R) :
    ∀ e ∈ R,
      (e.attributes = ARef.null ∨
        ∃ n, e.attributes = ARef.obj n ∧ n ∈ R.map AcisEntity.oid) ∧
      (∀ it ∈ e.data, ∀ r : ARef, it = DItem.ref r →
        (r = ARef.null ∨ ∃ n, r = ARef.obj n ∧ n ∈ R.map AcisEntity.oid)) := by
  rw [resolve_str_pointers] at h
  cases hres : exceptMapM (resolveEntry d) d with
  | error e1 => rw [hres, exceptBind_error] at h; cases h
  | ok resolved =>
    rw [hres, exceptBind_ok] at h
    injection h with h
    subst h
    have hoid : ∀ p ∈ d, p.2.oid ∈
        ((sortByKey resolved).map (fun q => q.2)).map AcisEntity.oid := by
      intro p hp
      obtain ⟨q, hq, hfq⟩ := exceptMapM_ok_forward _ d resolved hres p hp
      rw [resolveEntry] at hfq
      cases hre : resolveEntity d p.2 with
      | error e1 => rw [hre, exceptBind_error] at hfq; cases hfq
      | ok e2 =>
        rw [hre, exceptBind_ok] at hfq
        injection hfq with hfq
        subst hfq
        have hq2 : (p.1, e2) ∈ sortByKey resolved := (mem_sortByKey _ _).mpr hq
        have hmem : e2 ∈ (sortByKey resolved).map (fun q => q.2) :=
          List.mem_map.mpr ⟨(p.1, e2), hq2, rfl⟩
        exact List.mem_map.mpr ⟨e2, hmem, (resolveEntity_ok d p.2 e2 hre).1⟩
    intro e he
    obtain ⟨q, hq, hqe⟩ := List.mem_map.mp he
    have hq2 : q ∈ resolved := (mem_sortByKey _ _).mp hq
    obtain ⟨p, hp, hfp⟩ := exceptMapM_ok_mem _ d resolved hres q hq2
    rw [resolveEntry] at hfp
    cases hre : resolveEntity d p.2 with
    | error e1 => rw [hre, exceptBind_error] at hfp; cases hfp
    | ok e2 =>
      rw [hre, exceptBind_ok] at hfp
      injection hfp with hfp
      have he2 : e = e2 := by rw [← hqe, ← hfp]
      subst he2
      obtain ⟨hoideq, hattr, hdata⟩ := resolveEntity_ok d p.2 e hre
      constructor
      · rcases ptrResolve_ok_ref d p.2.attr_ptr e.attributes hattr with hnull | ⟨p2, hp2, hobj⟩
        · exact Or.inl hnull
        · exact Or.inr ⟨p2.2.oid, hobj, hoid p2 hp2⟩
      · intro it hit r hr
        obtain ⟨src, hsrc, hsrcok⟩ := exceptMapM_ok_mem _ _ _ hdata it hit
        rcases resolveItem_ok_ref d src it r hsrcok hr with hres2 | ⟨heq, hnoref⟩
        · rcases ptrResolve_ok_ref d _ _ hres2 with hnull | ⟨p2, hp2, hobj⟩
          · exact Or.inl hnull
          · exact Or.inr ⟨p2.2.oid, hobj, hoid p2 hp2⟩
        · exfalso
          rw [heq] at hr
          exact hnoref r hr

/-- C9: in every graph produced by a successful parse, each entity's
`attributes` is the null sentinel or the identity of some `entities[i]` of
the same graph, and likewise every entity-valued data element. -/
theorem claim_C9 (lines : List String) (t : AcisTree)
    (hp : parse_sat lines = .ok t) :
    ∀ e ∈ t.entities,
      (e.attributes = ARef.null ∨
        ∃ i, ∃ hi : i < t.entities.length,
          e.attributes = ARef.obj ((t.entities.get ⟨i, hi⟩).oid)) ∧
      (∀ it ∈ e.data, ∀ r : ARef, it = DItem.ref r →
        (r = ARef.null ∨
          ∃ i, ∃ hi : i < t.entities.length,
            r = ARef.obj ((t.entities.get ⟨i, hi⟩).oid))) := by
  rw [parse_sat] at hp
  cases hh : parse_sat_header lines with
  | error e1 => rw [hh, exceptBind_error] at hp; cases hp
  | ok hr =>
    rw [hh, exceptBind_ok] at hp
    cases hrec : parse_records hr.2 with
    | error e1 => rw [hrec, exceptBind_error] at hp; cases hp
    | ok records =>
      rw [hrec, exceptBind_ok] at hp
      cases hbe : build_entities records hr.1.version with
      | error e1 => rw [hbe, exceptBind_error] at hp; cases hp
      | ok d =>
        rw [hbe, exceptBind_ok] at hp
        cases hres : resolve_str_pointers d with
        | error e1 => rw [hres, exceptBind_error] at hp; cases hp
        | ok R =>
          rw [hres, exceptBind_ok] at hp
          injection hp with hp
          subst hp
          intro e he
          have hmain := resolve_refs_closed d R hres e he
          constructor
          · rcases hmain.1 with hnull | ⟨n, hobj, hn⟩
            · exact Or.inl hnull
            · right
              obtain ⟨e2, he2, hoid⟩ := List.mem_map.mp hn
              obtain ⟨⟨i, hi⟩, hget⟩ := List.mem_iff_get.mp he2
              exact ⟨i, hi, by rw [hobj, ← hoid, ← hget]; exact rfl⟩
          · intro it hit r hr2
            rcases hmain.2 it hit r hr2 with hnull | ⟨n, hobj, hn⟩
            · exact Or.inl hnull
            · right
              obtain ⟨e2, he2, hoid⟩ := List.mem_map.mp hn
              obtain ⟨⟨i, hi⟩, hget⟩ := List.mem_iff_get.mp he2
              exact ⟨i, hi, by rw [hobj, ← hoid, ← hget]; exact rfl⟩

/-- Witness for C9 at the spec's end-to-end example, instantiated at the
second parsed entity (the wire referring back to the body). -/
theorem claim_C9_witness :
    ∃ e, e ∈ demoParsedTree.entities ∧
      (e.attributes = ARef.null ∨
        ∃ i, ∃ hi : i < demoParsedTree.entities.length,
          e.attributes = ARef.obj ((demoParsedTree.entities.get ⟨i, hi⟩).oid)) ∧
      (∀ it ∈ e.data, ∀ r : ARef, it = DItem.ref r →
        (r = ARef.null ∨
          ∃ i, ∃ hi : i < demoParsedTree.entities.length,
            r = ARef.obj ((demoParsedTree.entities.get ⟨i, hi⟩).oid))) :=
  ⟨{ oid := 1, name := "wire", attr_ptr := "$-1", id := -1,
     data := [], attributes := ARef.obj 0 },
   by decide,
   claim_C9 demoLines demoParsedTree rfl
     { oid := 1, name := "wire", attr_ptr := "$-1", id := -1,
       data := [], attributes := ARef.obj 0 }
     (by decide)⟩

/-- Digit characters are decimal digits. -/
theorem digitChar_isDigit {d : Nat} (h : d < 10) : (digitChar d).isDigit = true := by
  interval_cases d <;> decide

/-- Digit characters decode to their digit. -/
theorem digitChar_toNat {d : Nat} (h : d < 10) : (digitChar d).toNat - '0'.toNat = d := by
  interval_cases d <;> decide

/-- A decimal digit is not whitespace. -/
theorem isDigit_not_ws (c : Char) (h : c.isDigit = true) : isWsC c = false := by
  by_contra hw
  rw [Bool.not_eq_false] at hw
  rw [isWsC] at hw
  simp only [Bool.or_eq_true, decide_eq_true_eq] at hw
  rcases hw with ((((h1 | h1) | h1) | h1) | h1) | h1 <;> (subst h1; cases h)

/-- A decimal digit is not `@`. -/
theorem isDigit_ne_at (c : Char) (h : c.isDigit = true) : c ≠ '@' := by
  intro he; subst he; cases h

/-- A decimal digit is not a sign character. -/
theorem isDigit_ne_plus (c : Char) (h : c.isDigit = true) : c ≠ '+' := by
  intro he; subst he; cases h

/-- A decimal digit is not a minus sign. -/
theorem isDigit_ne_minus (c : Char) (h : c.isDigit = true) : c ≠ '-' := by
  intro he; subst he; cases h

/-- Appending one digit multiplies the decoded value by ten. -/
theorem digitsVal_append_one (xs : List Char) (c : Char) :
    digitsVal (xs ++ [c]) = digitsVal xs * 10 + (c.toNat - '0'.toNat) := by
  rw [digitsVal, digitsVal, List.foldl_append]
  rfl

/-- `natStrGo` produces a nonempty digit string decoding back to its input. -/
theorem natStrGo_spec (fuel : Nat) : ∀ n, n < 10 ^ fuel → fuel ≠ 0 →
    natStrGo fuel n ≠ [] ∧ (natStrGo fuel n).all Char.isDigit = true ∧
      digitsVal (natStrGo fuel n) = n := by
  induction fuel with
  | zero => intro n _ hf; exact absurd rfl hf
  | succ f ih =>
    intro n hn _
    rw [natStrGo]
    by_cases h10 : n < 10
    · rw [if_pos h10]
      refine ⟨by simp, ?_, ?_⟩
      · simp [List.all_cons, digitChar_isDigit h10]
      · rw [show digitsVal [digitChar n] = 0 * 10 + ((digitChar n).toNat - '0'.toNat) from rfl]
        rw [digitChar_toNat h10]
        omega
    · rw [if_neg h10]
      have hf : f ≠ 0 := by
        intro hf0
        subst hf0
        simp at hn
        omega
      have hdiv : n / 10 < 10 ^ f := by
        rw [Nat.pow_succ] at hn
        exact Nat.div_lt_of_lt_mul (by omega)
      obtain ⟨hne, hall, hval⟩ := ih (n / 10) hdiv hf
      refine ⟨by simp, ?_, ?_⟩
      · rw [List.all_append, hall]
        simp [digitChar_isDigit (Nat.mod_lt n (by omega))]
      · rw [digitsVal_append_one, hval, digitChar_toNat (Nat.mod_lt n (by omega))]
        omega

/-- `natStr n` is a nonempty digit string decoding back to `n`. -/
theorem natStr_spec (n : Nat) :
    (natStr n).data ≠ [] ∧ (natStr n).data.all Char.isDigit = true ∧
      digitsVal (natStr n).data = n := by
  have hlt : n < 10 ^ (n + 1) :=
    lt_of_lt_of_le (Nat.lt_two_pow n)
      (le_trans (Nat.pow_le_pow_left (by omega) n)
        (Nat.pow_le_pow_right (by omega) (by omega)))
  exact natStrGo_spec (n + 1) n hlt (by omega)

/-- Digit-only strings parse to their value under `pyDigits?`. -/
theorem pyDigits?_of_digits (ds : List Char) (hne : ds ≠ [])
    (hall : ds.all Char.isDigit = true) :
    pyDigits? ds = some (digitsVal ds) := by
  rw [pyDigits?, if_pos]
  rw [Bool.and_eq_true]
  exact ⟨by simpa using hne, hall⟩

/-- Python `int` inverts the decimal printing of a natural number. -/
theorem pyInt?_natStr (n : Nat) : pyInt? (natStr n) = some (Int.ofNat n) := by
  obtain ⟨hne, hall, hval⟩ := natStr_spec n
  rw [pyInt?]
  rcases hd : (natStr n).data with _ | ⟨c, cs⟩
  · exact absurd hd hne
  · rw [hd] at hall hval
    have hcd : c.isDigit = true := by
      rw [List.all_cons, Bool.and_eq_true] at hall
      exact hall.1
    simp only [if_neg (isDigit_ne_plus c hcd), if_neg (isDigit_ne_minus c hcd),
      pyDigits?_of_digits (c :: cs) (by simp) hall, hval]
    rfl

/-- Python `int` inverts Python `str` on integers. -/
theorem pyInt?_intStr (i : Int) : pyInt? (intStr i) = some i := by
  rw [intStr]
  by_cases hneg : i < 0
  · rw [if_pos hneg]
    obtain ⟨hne, hall, hval⟩ := natStr_spec i.natAbs
    have hds : pyDigits? (natStr i.natAbs).data = some i.natAbs := by
      rw [pyDigits?_of_digits _ hne hall, hval]
    rw [pyInt?]
    have hdata : ("-" ++ natStr i.natAbs).data = '-' :: (natStr i.natAbs).data := by
      rw [String.data_append]
      rfl
    rw [hdata]
    simp only [if_neg (show ('-' : Char) ≠ '+' by decide),
      if_pos (rfl : ('-' : Char) = '-'), hds]
    have hgoal : -(Int.ofNat i.natAbs) = i := by
      rw [show Int.ofNat i.natAbs = ((i.natAbs : Nat) : Int) from rfl,
        Int.natCast_natAbs, abs_of_neg hneg, neg_neg]
    simpa using hgoal
  · rw [if_neg hneg]
    rw [pyInt?_natStr i.toNat]
    simp only [Option.some.injEq]
    exact Int.toNat_of_nonneg (by omega)

/-- The scanner skips `@` when not collecting. -/
theorem phsGo_skip_at (cs num tok : List Char) :
    parseHeaderStrGo ('@' :: cs) num 0 tok = parseHeaderStrGo cs num 0 tok := by
  rw [parseHeaderStrGo, if_neg (by omega), if_pos rfl]

/-- The scanner accumulates a digit when not collecting. -/
theorem phsGo_digit (c : Char) (hc : c.isDigit = true) (cs num tok : List Char) :
    parseHeaderStrGo (c :: cs) num 0 tok = parseHeaderStrGo cs (num ++ [c]) 0 tok := by
  rw [parseHeaderStrGo, if_neg (by omega), if_neg (isDigit_ne_at c hc), if_pos hc]

/-- The scanner accumulates a run of digits. -/
theorem phsGo_digits (ds : List Char) (hd : ds.all Char.isDigit = true)
    (cs num tok : List Char) :
    parseHeaderStrGo (ds ++ cs) num 0 tok = parseHeaderStrGo cs (num ++ ds) 0 tok := by
  induction ds generalizing num with
  | nil => simp
  | cons c ds ih =>
    rw [List.all_cons, Bool.and_eq_true] at hd
    rw [List.cons_append, phsGo_digit c hd.1, ih hd.2, List.append_assoc]
    rfl

/-- A space after accumulated digits starts collecting that many characters. -/
theorem phsGo_space_collect (cs num tok : List Char) (hnum : num ≠ []) :
    parseHeaderStrGo (' ' :: cs) num 0 tok =
      parseHeaderStrGo cs [] (digitsVal num) tok := by
  rw [parseHeaderStrGo, if_neg (by omega), if_neg (by decide),
    if_neg (by decide), if_pos (by simp [hnum])]

/-- A space with no accumulated digits is ignored. -/
theorem phsGo_space_skip (cs tok : List Char) :
    parseHeaderStrGo (' ' :: cs) [] 0 tok = parseHeaderStrGo cs [] 0 tok := by
  rw [parseHeaderStrGo, if_neg (by omega), if_neg (by decide),
    if_neg (by decide), if_neg (by simp)]

/-- Collecting `t.length` characters consumes exactly `t` and yields it
(appended to the pending token). -/
theorem phsGo_collect (t : List Char) (ht : t ≠ []) :
    ∀ (cs num tok : List Char),
    parseHeaderStrGo (t ++ cs) num t.length tok =
      String.mk (tok ++ t) :: parseHeaderStrGo cs num 0 [] := by
  induction t with
  | nil => exact absurd rfl ht
  | cons c t ih =>
    intro cs num tok
    rw [List.cons_append, parseHeaderStrGo, if_pos (by simp)]
    cases hte : t with
    | nil => simp
    | cons c2 t2 =>
      rw [← hte]
      have htne : t ≠ [] := by rw [hte]; simp
      rw [if_neg (by rw [hte]; simp)]
      have hlen : (c :: t).length - 1 = t.length := by simp
      rw [hlen, ih htne cs num (tok ++ [c]), List.append_assoc]
      rfl

/-- `rstrip` of a line whose body ends in a non-whitespace character removes
exactly the final space. -/
theorem rstrip_body (X : List Char) (c : Char) (hc : X.getLast? = some c)
    (hw : isWsC c = false) :
    ((X ++ [' ']).reverse.dropWhile isWsC).reverse = X := by
  have hX : X.dropLast ++ [c] = X := List.dropLast_append_getLast? c hc
  have h1 : (X ++ [' ']).reverse = ' ' :: X.reverse := by simp
  rw [h1, List.dropWhile_cons_of_pos (by decide : isWsC ' ' = true)]
  have h2 : X.reverse = c :: X.dropLast.reverse := by
    conv_lhs => rw [← hX]
    simp
  rw [h2, List.dropWhile_cons_of_neg (by simp [hw]), ← h2, List.reverse_reverse]

/-- One length-prefixed field: digits, space, that many characters. -/
theorem phsGo_segment (t : List Char) (ht : t ≠ []) (rest : List Char) :
    parseHeaderStrGo ((natStr t.length).data ++ (' ' :: (t ++ rest))) [] 0 [] =
      String.mk t :: parseHeaderStrGo rest [] 0 [] := by
  rw [phsGo_digits _ (natStr_spec t.length).2.1, List.nil_append,
    phsGo_space_collect _ _ _ (natStr_spec t.length).1, (natStr_spec t.length).2.2,
    phsGo_collect t ht rest [] [], List.nil_append]

/-- A final length-prefixed field consumes the rest of the line. -/
theorem phsGo_final (t : List Char) (ht : t ≠ []) :
    parseHeaderStrGo ((natStr t.length).data ++ (' ' :: t)) [] 0 [] = [String.mk t] := by
  have h := phsGo_segment t ht []
  rw [List.append_nil] at h
  rw [h]
  rfl

/-- Last character through a space-separated segment. -/
theorem getLast?_seg (xs ys : List Char) (c : Char) (h : ys.getLast? = some c) :
    (xs ++ (' ' :: ys)).getLast? = some c := by
  rw [show xs ++ (' ' :: ys) = (xs ++ [' ']) ++ ys by simp, List.getLast?_append, h]
  rfl

/-- Last character through a cons cell. -/
theorem getLast?_cons_ne (c : Char) (ys : List Char) (a : Char)
    (h : ys.getLast? = some a) : (c :: ys).getLast? = some a := by
  rw [show c :: ys = [c] ++ ys from rfl, List.getLast?_append, h]
  rfl

/-- The space before the string literal, as a character list. -/
theorem data_space : (" " : String).data = [' '] := rfl

set_option maxHeartbeats 1000000 in
/-- The scanner recovers the three fields from a plain-dialect line 1. -/
theorem parseHeaderStr_plainDialect (p a d : String) (hp : p.data ≠ [])
    (ha : a.data ≠ []) (hd0 : d.data ≠ [])
    (hlast : ∀ c, d.data.getLast? = some c → isWsC c = false) :
    parseHeaderStr (plainDialectLine p a d) = [p, a, d] := by
  have hdc : d.data.getLast? = some (d.data.getLast hd0) :=
    List.getLast?_eq_getLast d.data hd0
  have hwlast : isWsC (d.data.getLast hd0) = false := hlast _ hdc
  have hline : (plainDialectLine p a d).data =
      ((natStr p.data.length).data ++ (' ' :: (p.data ++ (' ' ::
        ((natStr a.data.length).data ++ (' ' :: (a.data ++ (' ' ::
          ((natStr d.data.length).data ++ (' ' :: d.data))))))))))
        ++ [' '] := by
    simp only [plainDialectLine, String.data_append, data_space,
      List.append_assoc, List.singleton_append, List.cons_append, List.nil_append]
  have hXlast :
      ((natStr p.data.length).data ++ (' ' :: (p.data ++ (' ' ::
        ((natStr a.data.length).data ++ (' ' :: (a.data ++ (' ' ::
          ((natStr d.data.length).data ++ (' ' :: d.data)))))))))).getLast?
        = some (d.data.getLast hd0) :=
    getLast?_seg _ _ _ (getLast?_seg _ _ _ (getLast?_seg _ _ _
      (getLast?_seg _ _ _ (getLast?_seg _ _ _ hdc))))
  have hr : (pyRstrip (plainDialectLine p a d)).data =
      (natStr p.data.length).data ++ (' ' :: (p.data ++ (' ' ::
        ((natStr a.data.length).data ++ (' ' :: (a.data ++ (' ' ::
          ((natStr d.data.length).data ++ (' ' :: d.data))))))))) := by
    show ((plainDialectLine p a d).data.reverse.dropWhile isWsC).reverse = _
    rw [hline]
    exact rstrip_body _ _ hXlast hwlast
  rw [parseHeaderStr, hr, phsGo_segment p.data hp _, phsGo_space_skip,
    phsGo_segment a.data ha _, phsGo_space_skip, phsGo_final d.data hd0]

set_option maxHeartbeats 1000000 in
/-- The scanner recovers the same three fields from an `@`-dialect line 1. -/
theorem parseHeaderStr_atDialect (p a d : String) (hp : p.data ≠ [])
    (ha : a.data ≠ []) (hd0 : d.data ≠ [])
    (hlast : ∀ c, d.data.getLast? = some c → isWsC c = false) :
    parseHeaderStr (atDialectLine p a d) = [p, a, d] := by
  have hdc : d.data.getLast? = some (d.data.getLast hd0) :=
    List.getLast?_eq_getLast d.data hd0
  have hwlast : isWsC (d.data.getLast hd0) = false := hlast _ hdc
  have hline : (atDialectLine p a d).data =
      ('@' :: ((natStr p.data.length).data ++ (' ' :: (p.data ++ (' ' ::
        ('@' :: ((natStr a.data.length).data ++ (' ' :: (a.data ++ (' ' ::
          ('@' :: ((natStr d.data.length).data ++ (' ' :: d.data)))))))))))))
        ++ [' '] := by
    simp only [atDialectLine, String.data_append, data_space,
      List.append_assoc, List.singleton_append, List.cons_append, List.nil_append]
  have hXlast :
      ('@' :: ((natStr p.data.length).data ++ (' ' :: (p.data ++ (' ' ::
        ('@' :: ((natStr a.data.length).data ++ (' ' :: (a.data ++ (' ' ::
          ('@' :: ((natStr d.data.length).data ++ (' ' :: d.data))))))))))))).getLast?
        = some (d.data.getLast hd0) :=
    getLast?_cons_ne _ _ _ (getLast?_seg _ _ _ (getLast?_seg _ _ _
      (getLast?_cons_ne _ _ _ (getLast?_seg _ _ _ (getLast?_seg _ _ _
        (getLast?_cons_ne _ _ _ (getLast?_seg _ _ _ hdc)))))))
  have hr : (pyRstrip (atDialectLine p a d)).data =
      '@' :: ((natStr p.data.length).data ++ (' ' :: (p.data ++ (' ' ::
        ('@' :: ((natStr a.data.length).data ++ (' ' :: (a.data ++ (' ' ::
          ('@' :: ((natStr d.data.length).data ++ (' ' :: d.data)))))))))))) := by
    show ((atDialectLine p a d).data.reverse.dropWhile isWsC).reverse = _
    rw [hline]
    exact rstrip_body _ _ hXlast hwlast
  rw [parseHeaderStr, hr, phsGo_skip_at, phsGo_segment p.data hp _, phsGo_space_skip,
    phsGo_skip_at, phsGo_segment a.data ha _, phsGo_space_skip, phsGo_skip_at,
    phsGo_final d.data hd0]

/-- C10: header line-1 scanning is dialect-agnostic — the `@`-prefixed line
and the plain line built from the same three fields parse to the same token
list (hence identical `product_id`, `acis_version`, `creation_date` field
assignments), regardless of any version; only dumping selects the dialect,
emitting the `@`-form exactly when `version > 400`. -/
theorem claim_C10 (p a d : String) (hp : p.data ≠ []) (ha : a.data ≠ [])
    (hd0 : d.data ≠ [])
    (hlast : ∀ c, d.data.getLast? = some c → isWsC c = false) :
    parseHeaderStr (atDialectLine p a d) = [p, a, d] ∧
    parseHeaderStr (plainDialectLine p a d) = [p, a, d] ∧
    (∀ h0 : AcisHeader,
      parseDateField (parseHeaderStr (atDialectLine p a d))
          (parseNameFields (parseHeaderStr (atDialectLine p a d)) h0) =
        parseDateField (parseHeaderStr (plainDialectLine p a d))
          (parseNameFields (parseHeaderStr (plainDialectLine p a d)) h0)) ∧
    (∀ h : AcisHeader, h.header_str =
      if h.version > 400 then
        atDialectLine h.product_id h.acis_version h.creation_date
      else plainDialectLine h.product_id h.acis_version h.creation_date) := by
  have h1 := parseHeaderStr_atDialect p a d hp ha hd0 hlast
  have h2 := parseHeaderStr_plainDialect p a d hp ha hd0 hlast
  refine ⟨h1, h2, ?_, ?_⟩
  · intro h0
    rw [h1, h2]
  · intro h
    rw [AcisHeader.header_str, atDialectLine, plainDialectLine]

/-- Witness for C10 at concrete header fields. -/
theorem claim_C10_witness :
    parseHeaderStr (atDialectLine "ezdxf" "ACIS 4.00 NT" "Sat Jan  1 10:00:00 2022")
      = ["ezdxf", "ACIS 4.00 NT", "Sat Jan  1 10:00:00 2022"] ∧
    parseHeaderStr (plainDialectLine "ezdxf" "ACIS 4.00 NT" "Sat Jan  1 10:00:00 2022")
      = ["ezdxf", "ACIS 4.00 NT", "Sat Jan  1 10:00:00 2022"] := by
  have h := claim_C10 "ezdxf" "ACIS 4.00 NT" "Sat Jan  1 10:00:00 2022"
    (by decide) (by decide) (by decide)
    (fun c hc => by injection hc with h2; subst h2; decide)
  exact ⟨h.1, h.2.1⟩

/-- Counterexample to C1 as stated: `c1Bad` is valid in the claim's sense
(its one reference is the null sentinel, so all references resolve), yet
`parse(dump(c1Bad))` turns the literal data token `"$0"` into a reference to
`entities[0]` — the graphs do not match in literal data tokens. -/
theorem claim_C1_counterexample :
    specRefValidB c1Bad = true ∧
    c1Bad.dump_sat = .ok c1BadLines ∧
    (parse_sat c1BadLines).map treeObs =
      .ok [{ name := "body", id := -1, attr := RefObs.null,
             data := [DObs.ref (RefObs.idx 0)] }] ∧
    treeObs c1Bad =
      [{ name := "body", id := -1, attr := RefObs.null, data := [DObs.lit "$0"] }] ∧
    ([DObs.ref (RefObs.idx 0)] = [DObs.lit "$0"] → False) :=
  ⟨rfl, rfl, rfl, rfl, by decide⟩

/-- A whitespace-free word with no following input closes the current token. -/
theorem splitWord_all (t : List Char) :
    ∀ acc, t.all (fun c => !isWsC c) = true →
    splitWord t acc = [acc.reverse ++ t] := by
  induction t with
  | nil => intro acc _; rw [splitWord, List.append_nil]
  | cons c cs ih =>
    intro acc hall
    rw [List.all_cons, Bool.and_eq_true] at hall
    have hc : isWsC c = false := by
      have := hall.1
      simp at this
      exact this
    rw [splitWord, if_neg (by simp [hc]), ih (c :: acc) hall.2,
      List.reverse_cons, List.append_assoc]
    rfl

/-- A whitespace-free word followed by a final space closes the token. -/
theorem splitWord_all_space (t : List Char) :
    ∀ acc, t.all (fun c => !isWsC c) = true →
    splitWord (t ++ [' ']) acc = [acc.reverse ++ t] := by
  induction t with
  | nil =>
    intro acc _
    rw [List.nil_append, splitWord, if_pos (by decide), splitChars, List.append_nil]
  | cons c cs ih =>
    intro acc hall
    rw [List.all_cons, Bool.and_eq_true] at hall
    have hc : isWsC c = false := by
      have := hall.1
      simp at this
      exact this
    rw [List.cons_append, splitWord, if_neg (by simp [hc]), ih (c :: acc) hall.2,
      List.reverse_cons, List.append_assoc]
    rfl

/-- A whitespace-free word followed by a space and more input closes the
token and resumes splitting. -/
theorem splitWord_all_sep (t : List Char) :
    ∀ (acc rest : List Char), t.all (fun c => !isWsC c) = true →
    splitWord (t ++ ' ' :: rest) acc = (acc.reverse ++ t) :: splitChars rest := by
  induction t with
  | nil =>
    intro acc rest _
    rw [List.nil_append, splitWord, if_pos (by decide), List.append_nil]
  | cons c cs ih =>
    intro acc rest hall
    rw [List.all_cons, Bool.and_eq_true] at hall
    have hc : isWsC c = false := by
      have := hall.1
      simp at this
      exact this
    rw [List.cons_append, splitWord, if_neg (by simp [hc]), ih (c :: acc) rest hall.2,
      List.reverse_cons, List.append_assoc]
    rfl

/-- Splitting inverts joining for nonempty whitespace-free tokens. -/
theorem splitChars_joinChars (tss : List (List Char))
    (h : ∀ t ∈ tss, t ≠ [] ∧ t.all (fun c => !isWsC c) = true) :
    splitChars (joinChars tss) = tss := by
  induction tss with
  | nil => rfl
  | cons t rest ih =>
    obtain ⟨hne, hall⟩ := h t (List.mem_cons_self t rest)
    rcases ht : t with _ | ⟨c, cs⟩
    · exact absurd ht hne
    · subst ht
      rw [List.all_cons, Bool.and_eq_true] at hall
      have hc : isWsC c = false := by
        have := hall.1
        simp at this
        exact this
      cases rest with
      | nil =>
        rw [show joinChars [c :: cs] = c :: cs from rfl, splitChars,
          if_neg (by simp [hc]), splitWord_all cs [c] hall.2]
        rfl
      | cons t2 rest2 =>
        rw [show joinChars ((c :: cs) :: t2 :: rest2)
              = c :: (cs ++ ' ' :: joinChars (t2 :: rest2)) from rfl,
          splitChars, if_neg (by simp [hc]), splitWord_all_sep cs [c] _ hall.2,
          ih (fun x hx => h x (List.mem_cons_of_mem _ hx))]
        rfl

/-- Splitting inverts joining also through one trailing space. -/
theorem splitChars_joinChars_space (tss : List (List Char))
    (h : ∀ t ∈ tss, t ≠ [] ∧ t.all (fun c => !isWsC c) = true) :
    splitChars (joinChars tss ++ [' ']) = tss := by
  induction tss with
  | nil => rfl
  | cons t rest ih =>
    obtain ⟨hne, hall⟩ := h t (List.mem_cons_self t rest)
    rcases ht : t with _ | ⟨c, cs⟩
    · exact absurd ht hne
    · subst ht
      rw [List.all_cons, Bool.and_eq_true] at hall
      have hc : isWsC c = false := by
        have := hall.1
        simp at this
        exact this
      cases rest with
      | nil =>
        rw [show joinChars [c :: cs] ++ [' '] = c :: (cs ++ [' ']) from rfl,
          splitChars, if_neg (by simp [hc]), splitWord_all_space cs [c] hall.2]
        rfl
      | cons t2 rest2 =>
        rw [show joinChars ((c :: cs) :: t2 :: rest2) ++ [' ']
              = (c :: (cs ++ ' ' :: joinChars (t2 :: rest2))) ++ [' '] from rfl,
          show (c :: (cs ++ ' ' :: joinChars (t2 :: rest2))) ++ [' ']
              = c :: (cs ++ ' ' :: (joinChars (t2 :: rest2) ++ [' '])) by simp,
          splitChars, if_neg (by simp [hc]),
          splitWord_all_sep cs [c] _ hall.2,
          ih (fun x hx => h x (List.mem_cons_of_mem _ hx))]
        rfl

/-- Rebuilding strings from their character lists is the identity. -/
theorem mk_data_map (ts : List String) : (ts.map String.data).map String.mk = ts := by
  induction ts with
  | nil => rfl
  | cons t rest ih =>
    simp only [List.map_cons]
    rw [ih]

/-- Unpacking the single-token condition. -/
theorem tokenOkB_iff (s : String) :
    tokenOkB s = true ↔ s.data ≠ [] ∧ s.data.all (fun c => !isWsC c) = true := by
  rw [tokenOkB, Bool.and_eq_true]
  simp [List.isEmpty_iff]

/-- `split` inverts `" ".join` on single tokens. -/
theorem pySplit_sJoin (tokens : List String) (h : ∀ t ∈ tokens, tokenOkB t = true) :
    pySplit (sJoin tokens) = tokens := by
  rw [pySplit, sJoin,
    show (String.mk (joinChars (tokens.map String.data))).data
      = joinChars (tokens.map String.data) from rfl,
    splitChars_joinChars _ ?_, mk_data_map]
  intro t ht
  obtain ⟨s, hs, hts⟩ := List.mem_map.mp ht
  subst hts
  exact (tokenOkB_iff s).mp (h s hs)

/-- `split` also inverts `" ".join` through one trailing space. -/
theorem pySplit_join_space (tokens : List String) (s : String)
    (hdata : s.data = joinChars (tokens.map String.data) ++ [' '])
    (h : ∀ t ∈ tokens, tokenOkB t = true) :
    pySplit s = tokens := by
  rw [pySplit, hdata, splitChars_joinChars_space _ ?_, mk_data_map]
  intro t ht
  obtain ⟨s2, hs, hts⟩ := List.mem_map.mp ht
  subst hts
  exact (tokenOkB_iff s2).mp (h s2 hs)

/-- A marker containing no space is not a prefix of `name ++ " " ++ rest`
when it is not a prefix of `name`. -/
theorem marker_not_prefix_line (nameD restD mD : List Char)
    (hsp : ' ' ∉ mD) (hpre : mD.isPrefixOf nameD = false) :
    mD.isPrefixOf (nameD ++ ' ' :: restD) = false := by
  by_contra hcon
  rw [Bool.not_eq_false, List.isPrefixOf_iff_prefix] at hcon
  by_cases hlen : mD.length ≤ nameD.length
  · have hmn : mD <+: nameD :=
      List.prefix_of_prefix_length_le hcon (List.prefix_append nameD (' ' :: restD)) hlen
    have := List.isPrefixOf_iff_prefix.mpr hmn
    rw [hpre] at this
    cases this
  · push_neg at hlen
    obtain ⟨t, ht⟩ := hcon
    have h1 : (nameD ++ ' ' :: restD)[nameD.length]? = some ' ' := by
      rw [List.getElem?_append_right (le_refl _), Nat.sub_self]
      simp
    rw [← ht, List.getElem?_append_left hlen] at h1
    exact hsp (List.getElem?_mem h1)

/-- Dropping whitespace from a whitespace-free list is the identity. -/
theorem dropWhile_ws_eq_self (l : List Char)
    (h : l.all (fun c => !isWsC c) = true) : l.dropWhile isWsC = l := by
  cases l with
  | nil => rfl
  | cons c cs =>
    rw [List.all_cons, Bool.and_eq_true] at h
    exact List.dropWhile_cons_of_neg (by simp_all)

/-- `strip` is the identity on single tokens. -/
theorem pyStrip_token (s : String) (h : tokenOkB s = true) : pyStrip s = s := by
  obtain ⟨-, hall⟩ := (tokenOkB_iff s).mp h
  rw [pyStrip, dropWhile_ws_eq_self _ hall,
    dropWhile_ws_eq_self _ (by rw [List.all_reverse]; exact hall),
    List.reverse_reverse]

/-- Merging leaves `#`-terminated non-marker lines untouched and stops at
the end-of-data line. -/
theorem mergeRecGo_terminated (lines : List String)
    (hall : ∀ l ∈ lines, l.data ≠ [] ∧ lastCharOf l = some '#' ∧
      pyStartsWith l "End-of-ACIS-data" = false ∧
      pyStartsWith l "Begin-of-ACIS-History-Data" = false) :
    mergeRecGo (lines ++ ["End-of-ACIS-data "]) "" = lines := by
  induction lines with
  | nil => rfl
  | cons l ls ih =>
    obtain ⟨hne, hsharp, hm1, hm2⟩ := hall l (List.mem_cons_self l ls)
    rw [List.cons_append, mergeRecGo,
      if_neg (by
        rw [show l.data.length = l.data.length from rfl, List.length_eq_zero]
        exact hne),
      if_neg (by simp [hm1, hm2])]
    rw [show ("" : String) ++ l = l from rfl, if_pos hsharp]
    rw [ih (fun x hx => hall x (List.mem_cons_of_mem l hx))]

/-- A loop whose every iteration succeeds with a known value maps. -/
theorem exceptMapM_ok_of_all {α β : Type} (f : α → Except PyErr β) (g : α → β)
    (xs : List α) (h : ∀ x ∈ xs, f x = .ok (g x)) :
    exceptMapM f xs = .ok (xs.map g) := by
  induction xs with
  | nil => rfl
  | cons x rest ih =>
    rw [exceptMapM, h x (List.mem_cons_self x rest), exceptBind_ok,
      ih (fun y hy => h y (List.mem_cons_of_mem x hy)), exceptBind_ok, List.map_cons]

/-- On a valid reference the serializer emits `attrTok`. -/
theorem ptr_str_ok (es : List AcisEntity) (r : ARef) (h : refOkB es r = true) :
    ptr_str es r = .ok (attrTok es r) := by
  cases r with
  | null => rfl
  | pynone => cases h
  | obj n =>
    rw [refOkB] at h
    obtain ⟨i, hi⟩ := Option.isSome_iff_exists.mp h
    rw [ptr_str, attrTok, hi]
    rfl

/-- On a valid entity the serializer emits exactly `recTokens`. -/
theorem buildRecordTokens_ok (es : List AcisEntity) (ver : Int) (e : AcisEntity)
    (h : entityOkB es ver e = true) :
    buildRecordTokens es ver e = .ok (recTokens es ver e) := by
  rw [entityOkB, Bool.and_eq_true, Bool.and_eq_true, Bool.and_eq_true] at h
  obtain ⟨⟨⟨hname, hattr⟩, hdata⟩, hid⟩ := h
  rw [buildRecordTokens, ptr_str_ok es e.attributes hattr, exceptBind_ok,
    exceptMapM_ok_of_all (dataTokenStr es) (dTok es) e.data ?_, exceptBind_ok,
    recTokens]
  intro d hd
  rw [List.all_eq_true] at hdata
  have hdok := hdata d hd
  cases d with
  | lit s => rfl
  | ref r =>
    rw [dataTokenStr, dTok]
    exact ptr_str_ok es r (by simpa using hdok)

/-- On a valid graph the serializer emits one `recLine` per entity. -/
theorem build_str_records_ok (es : List AcisEntity) (ver : Int)
    (h : ∀ e ∈ es, entityOkB es ver e = true) :
    build_str_records es ver = .ok (es.map (recLine es ver)) := by
  rw [build_str_records]
  exact exceptMapM_ok_of_all _ _ es (fun e he => by
    rw [buildRecordTokens_ok es ver e (h e he)]
    rfl)

/-- Decimal strings are whitespace-free. -/
theorem natStr_nonWs (n : Nat) :
    (natStr n).data.all (fun c => !isWsC c) = true := by
  rw [List.all_eq_true]
  intro c hc
  have hall := (natStr_spec n).2.1
  rw [List.all_eq_true] at hall
  simp [isDigit_not_ws c (by simpa using hall c hc)]

/-- Integer strings are single tokens. -/
theorem intStr_tokenOk (i : Int) : tokenOkB (intStr i) = true := by
  rw [tokenOkB_iff, intStr]
  by_cases hneg : i < 0
  · rw [if_pos hneg]
    constructor
    · rw [String.data_append]
      simp
    · rw [String.data_append, List.all_append]
      rw [show ("-" : String).data.all (fun c => !isWsC c) = true by decide,
        natStr_nonWs]
      rfl
  · rw [if_neg hneg]
    exact ⟨(natStr_spec _).1, natStr_nonWs _⟩

/-- Serialized pointer tokens are single tokens. -/
theorem attrTok_tokenOk (es : List AcisEntity) (r : ARef) (h : refOkB es r = true) :
    tokenOkB (attrTok es r) = true := by
  cases r with
  | null =>
    rw [show attrTok es ARef.null = "$-1" from rfl]
    decide
  | pynone => cases h
  | obj n =>
    rw [attrTok, tokenOkB_iff]
    constructor
    · rw [String.data_append]
      simp
    · rw [String.data_append, List.all_append]
      rw [show ("$" : String).data.all (fun c => !isWsC c) = true by decide,
        natStr_nonWs]
      rfl

/-- Every token of a valid record line is a single token. -/
theorem recTokens_all_tokenOk (es : List AcisEntity) (ver : Int) (e : AcisEntity)
    (h : entityOkB es ver e = true) :
    ∀ t ∈ recTokens es ver e, tokenOkB t = true := by
  rw [entityOkB, Bool.and_eq_true, Bool.and_eq_true, Bool.and_eq_true] at h
  obtain ⟨⟨⟨hname, hattr⟩, hdata⟩, hid⟩ := h
  intro t ht
  rw [recTokens] at ht
  rcases List.mem_append.mp ht with h1 | h1
  · rcases List.mem_append.mp h1 with h2 | h2
    · rcases List.mem_append.mp h2 with h3 | h3
      · rcases List.mem_cons.mp h3 with h4 | h4
        · subst h4
          rw [nameOkB, Bool.and_eq_true, Bool.and_eq_true, Bool.and_eq_true] at hname
          exact hname.1.1.1
        · rcases List.mem_singleton.mp h4 with h5
          subst h5
          exact attrTok_tokenOk es e.attributes hattr
      · by_cases hv : ver ≥ 700
        · rw [if_pos hv] at h3
          rcases List.mem_singleton.mp h3 with h5
          subst h5
          exact intStr_tokenOk e.id
        · rw [if_neg hv] at h3
          cases h3
    · obtain ⟨d, hd, hdt⟩ := List.mem_map.mp h2
      subst hdt
      rw [List.all_eq_true] at hdata
      have hdok := hdata d hd
      cases d with
      | lit s =>
        rw [dTok]
        have hls : litOkB s = true := by simpa using hdok
        rw [litOkB, Bool.and_eq_true] at hls
        exact hls.1
      | ref r => exact attrTok_tokenOk es r (by simpa using hdok)
  · rcases List.mem_singleton.mp h1 with h5
    subst h5
    decide

/-- Joined token lines ending in the terminator token end in `#`. -/
theorem joinChars_concat_sharp (tss : List (List Char)) :
    (joinChars (tss ++ [['#']])).getLast? = some '#' := by
  induction tss with
  | nil => rfl
  | cons t ts ih =>
    cases ts with
    | nil =>
      rw [show joinChars ([t] ++ [['#']]) = t ++ ' ' :: joinChars [['#']] from rfl]
      exact getLast?_seg _ _ _ rfl
    | cons t2 ts2 =>
      rw [show joinChars ((t :: t2 :: ts2) ++ [['#']])
            = t ++ ' ' :: joinChars ((t2 :: ts2) ++ [['#']]) from rfl]
      exact getLast?_seg _ _ _ ih

/-- A serialized record line ends with `#`. -/
theorem recLine_last_sharp (es : List AcisEntity) (ver : Int) (e : AcisEntity) :
    lastCharOf (recLine es ver e) = some '#' := by
  rw [recLine, lastCharOf, sJoin]
  rw [show recTokens es ver e =
       (([e.name, attrTok es e.attributes] ++ (if ver ≥ 700 then [intStr e.id] else [])
         ++ e.data.map (dTok es)) ++ ["#"]) from rfl]
  rw [List.map_append]
  exact joinChars_concat_sharp _

/-- A serialized record line is not blank. -/
theorem recLine_ne_empty (es : List AcisEntity) (ver : Int) (e : AcisEntity) :
    (recLine es ver e).data ≠ [] := by
  intro h
  have := recLine_last_sharp es ver e
  rw [lastCharOf, h] at this
  cases this

/-- A serialized record line starts with the entity name then a space. -/
theorem recLine_data_shape (es : List AcisEntity) (ver : Int) (e : AcisEntity) :
    (recLine es ver e).data = e.name.data ++ ' ' ::
      joinChars (((attrTok es e.attributes :: (if ver ≥ 700 then [intStr e.id] else [])
        ++ e.data.map (dTok es) ++ ["#"])).map String.data) := rfl

/-- A serialized record line does not start with either merge marker. -/
theorem recLine_no_marker (es : List AcisEntity) (ver : Int) (e : AcisEntity)
    (h : nameOkB e.name = true) (m : String) (hm : (' ' ∈ m.data → False))
    (hp : pyStartsWith e.name m = false) :
    pyStartsWith (recLine es ver e) m = false := by
  rw [pyStartsWith, recLine_data_shape]
  exact marker_not_prefix_line _ _ _ hm (by rw [pyStartsWith] at hp; exact hp)

/-- `parse_records` on clean serialized token lines: consecutive numbering
and the terminator dropped. -/
theorem parseRecordsGo_expected (tls : List (List String)) :
    ∀ num : Int,
    (∀ tl ∈ tls, (∃ name rest2, tl = name :: rest2 ∧ nameOkB name = true) ∧
      (∀ t ∈ tl, tokenOkB t = true)) →
    parseRecordsGo (tls.map sJoin) num = .ok (expRecords tls num) := by
  induction tls with
  | nil => intro num _; rfl
  | cons tl rest ih =>
    intro num hok
    obtain ⟨⟨name, rest2, htl, hname⟩, hall⟩ := hok tl (List.mem_cons_self tl rest)
    rw [List.map_cons, parseRecordsGo, pySplit_sJoin tl hall, htl]
    rw [show listIdx (name :: rest2) 0 = .ok name from rfl, exceptBind_ok]
    have hnameOk : tokenOkB name = true := by
      rw [nameOkB, Bool.and_eq_true, Bool.and_eq_true, Bool.and_eq_true] at hname
      exact hname.1.1.1
    rw [pyStrip_token name hnameOk]
    have hne : (lastCharOf name = some '=') → False := by
      rw [nameOkB, Bool.and_eq_true, Bool.and_eq_true, Bool.and_eq_true] at hname
      have := hname.1.1.2
      simp only [bne_iff_ne, ne_eq] at this
      exact this
    rw [if_neg hne, ih (num + 1) (fun x hx => hok x (List.mem_cons_of_mem tl hx)),
      exceptBind_ok, expRecords]

/-- Splitting the dumped header line 0 recovers the four integer tokens. -/
theorem line0_split (v nr ne hf : Int) :
    pySplit (intStr v ++ " " ++ intStr nr ++ " " ++ intStr ne ++ " " ++ intStr hf ++ " ")
      = [intStr v, intStr nr, intStr ne, intStr hf] := by
  refine pySplit_join_space [intStr v, intStr nr, intStr ne, intStr hf] _ ?_ ?_
  · simp only [String.data_append, data_space]
    rw [show joinChars ([intStr v, intStr nr, intStr ne, intStr hf].map String.data)
        = (intStr v).data ++ ' ' :: ((intStr nr).data ++ ' ' ::
            ((intStr ne).data ++ ' ' :: (intStr hf).data)) from rfl]
    simp [List.append_assoc]
  · intro t ht
    rcases List.mem_cons.mp ht with h1 | h1
    · subst h1; exact intStr_tokenOk v
    rcases List.mem_cons.mp h1 with h2 | h2
    · subst h2; exact intStr_tokenOk nr
    rcases List.mem_cons.mp h2 with h3 | h3
    · subst h3; exact intStr_tokenOk ne
    rcases List.mem_singleton.mp h3 with h4
    subst h4; exact intStr_tokenOk hf

/-- Re-parsing a dumped header succeeds, consumes exactly the three lines,
and preserves the version. -/
theorem parse_sat_header_dumps (h : AcisHeader) (rest : List String) :
    ∃ h2, parse_sat_header (h.dumps ++ rest) = .ok (h2, rest) ∧
      h2.version = h.version := by
  have hd : h.dumps ++ rest =
      (intStr h.version ++ " " ++ intStr h.n_records ++ " " ++ intStr h.n_entities
        ++ " " ++ intStr h.history_flag ++ " ")
      :: h.header_str
      :: (h.units_in_mm ++ " 9.9999999999999995e-007 1e-010 ") :: rest := rfl
  rw [hd, parse_sat_header]
  have l0 : listIdx ((intStr h.version ++ " " ++ intStr h.n_records ++ " "
      ++ intStr h.n_entities ++ " " ++ intStr h.history_flag ++ " ")
      :: h.header_str
      :: (h.units_in_mm ++ " 9.9999999999999995e-007 1e-010 ") :: rest) 0
      = .ok (intStr h.version ++ " " ++ intStr h.n_records ++ " "
        ++ intStr h.n_entities ++ " " ++ intStr h.history_flag ++ " ") := rfl
  have l1 : listIdx ((intStr h.version ++ " " ++ intStr h.n_records ++ " "
      ++ intStr h.n_entities ++ " " ++ intStr h.history_flag ++ " ")
      :: h.header_str
      :: (h.units_in_mm ++ " 9.9999999999999995e-007 1e-010 ") :: rest) 1
      = .ok h.header_str := rfl
  have l2 : listIdx ((intStr h.version ++ " " ++ intStr h.n_records ++ " "
      ++ intStr h.n_entities ++ " " ++ intStr h.history_flag ++ " ")
      :: h.header_str
      :: (h.units_in_mm ++ " 9.9999999999999995e-007 1e-010 ") :: rest) 2
      = .ok (h.units_in_mm ++ " 9.9999999999999995e-007 1e-010 ") := rfl
  have lt0 : listIdx [intStr h.version, intStr h.n_records, intStr h.n_entities,
      intStr h.history_flag] 0 = .ok (intStr h.version) := rfl
  simp only [l0, l1, l2, exceptBind_ok, line0_split, lt0, pyIntE, pyInt?_intStr,
    List.drop_succ_cons, List.drop_zero]
  rw [parseCounts_eq]
  refine ⟨_, rfl, ?_⟩
  have hC := parse_chain_counts h.header_str
    (h.units_in_mm ++ " 9.9999999999999995e-007 1e-010 ")
    { version := h.version,
      n_records := (countsSpec [intStr h.n_records, intStr h.n_entities,
        intStr h.history_flag]).1,
      n_entities := (countsSpec [intStr h.n_records, intStr h.n_entities,
        intStr h.history_flag]).2.1,
      history_flag := (countsSpec [intStr h.n_records, intStr h.n_entities,
        intStr h.history_flag]).2.2 }
  simp only [countsOf, Prod.mk.injEq] at hC
  exact hC.1

/-- Inserting a fresh key appends. -/
theorem dictInsert_fresh (d0 : PyDict) (k : Int) (v : AcisEntity)
    (h : ∀ p ∈ d0, p.1 ≠ k) : dictInsert d0 k v = d0 ++ [(k, v)] := by
  induction d0 with
  | nil => rfl
  | cons p rest ih =>
    rw [dictInsert, if_neg (h p (List.mem_cons_self p rest)), List.cons_append,
      ih (fun q hq => h q (List.mem_cons_of_mem p hq))]

/-- The terminator token drops off a serialized record's token list. -/
theorem recTokens_dropLast (es : List AcisEntity) (ver : Int) (e : AcisEntity) :
    (recTokens es ver e).dropLast =
      [e.name, attrTok es e.attributes] ++ (if ver ≥ 700 then [intStr e.id] else [])
        ++ e.data.map (dTok es) := by
  rw [show recTokens es ver e =
      ([e.name, attrTok es e.attributes] ++ (if ver ≥ 700 then [intStr e.id] else [])
        ++ e.data.map (dTok es)) ++ ["#"] from rfl, List.dropLast_concat]

/-- `expEntity` with the version test resolved positively. -/
theorem expEntity_pos (full : List AcisEntity) (ver : Int) (i : Nat)
    (e : AcisEntity) (hv : ver ≥ 700) :
    expEntity full ver i e =
      { oid := i, name := e.name, attr_ptr := attrTok full e.attributes,
        id := e.id, data := (e.data.map (dTok full)).map DItem.lit,
        attributes := ARef.pynone } := by
  rw [expEntity, if_pos hv]

/-- `expEntity` with the version test resolved negatively. -/
theorem expEntity_neg (full : List AcisEntity) (ver : Int) (i : Nat)
    (e : AcisEntity) (hv : ¬ ver ≥ 700) :
    expEntity full ver i e =
      { oid := i, name := e.name, attr_ptr := attrTok full e.attributes,
        id := -1, data := (e.data.map (dTok full)).map DItem.lit,
        attributes := ARef.pynone } := by
  rw [expEntity, if_neg hv]

/-- Indexing the head. -/
theorem listIdx_cons_zero (a : String) (l : List String) :
    listIdx (a :: l) 0 = .ok a := rfl

/-- Indexing past the head. -/
theorem listIdx_cons_succ (a : String) (l : List String) (n : Nat) :
    listIdx (a :: l) (n + 1) = listIdx l n := rfl

/-- `build_entities` over re-parsed records of a valid graph produces the
expected arena, keys and identities counting up from `i`. -/
theorem buildEntitiesGo_expected (full : List AcisEntity) (ver : Int) :
    ∀ (es : List AcisEntity) (i : Nat) (d0 : PyDict),
    (∀ p ∈ d0, p.1 < Int.ofNat i) →
    buildEntitiesGo (expRecords (es.map (recTokens full ver)) (Int.ofNat i)) ver i d0
      = .ok (d0 ++ expDict full ver es i) := by
  intro es
  induction es with
  | nil =>
    intro i d0 _
    rw [List.map_nil, expRecords, buildEntitiesGo, expDict, List.append_nil]
  | cons e rest ih =>
    intro i d0 hkeys
    rw [List.map_cons, expRecords, buildEntitiesGo, recTokens_dropLast]
    have hnext : (Int.ofNat i) + 1 = Int.ofNat (i + 1) := (Int.ofNat_succ i).symm
    have hfresh : ∀ p ∈ d0, p.1 ≠ Int.ofNat i :=
      fun p hp => ne_of_lt (hkeys p hp)
    have hkeys2 : ∀ p ∈ d0 ++ [(Int.ofNat i, expEntity full ver i e)],
        p.1 < Int.ofNat (i + 1) := by
      intro p hp
      rcases List.mem_append.mp hp with hp | hp
      · exact lt_trans (hkeys p hp) (Int.ofNat_lt.mpr (Nat.lt_succ_self i))
      · rcases List.mem_singleton.mp hp with h5
        subst h5
        exact Int.ofNat_lt.mpr (Nat.lt_succ_self i)
    by_cases hv : ver ≥ 700
    · simp only [if_pos hv, List.cons_append, List.nil_append,
        listIdx_cons_zero, listIdx_cons_succ, exceptBind_ok, pyIntE, pyInt?_intStr,
        List.drop_succ_cons, List.drop_zero]
      rw [expEntity_pos full ver i e hv] at hkeys2
      rw [dictInsert_fresh d0 _ _ hfresh, hnext, ih (i + 1) _ hkeys2,
        expDict, List.append_assoc,
        expEntity_pos full ver i e hv]
      rfl
    · simp only [if_neg hv, List.cons_append, List.nil_append,
        listIdx_cons_zero, listIdx_cons_succ, exceptBind_ok,
        List.drop_succ_cons, List.drop_zero]
      rw [expEntity_neg full ver i e hv] at hkeys2
      rw [dictInsert_fresh d0 _ _ hfresh, hnext, ih (i + 1) _ hkeys2,
        expDict, List.append_assoc,
        expEntity_neg full ver i e hv]
      rfl

/-- Dropping the `$` sigil recovers the payload. -/
theorem strDrop1_dollar (s : String) : strDrop1 ("$" ++ s) = s := by
  cases s with
  | mk d => rfl

/-- A `$`-prefixed token satisfies `is_ptr`. -/
theorem is_ptr_dollar (s : String) : is_ptr ("$" ++ s) = true := by
  cases s with
  | mk d => rfl

/-- Looking up record number `i + j` in the expected mapping finds the
expected entity built from the element at index `j`. -/
theorem expDict_find (full : List AcisEntity) (ver : Int) :
    ∀ (es : List AcisEntity) (i j : Nat) (e : AcisEntity),
    es.get? j = some e →
    dictFind? (expDict full ver es i) (Int.ofNat (i + j))
      = some (expEntity full ver (i + j) e) := by
  intro es
  induction es with
  | nil =>
    intro i j e h
    cases j <;> exact Option.noConfusion h
  | cons a es ih =>
    intro i j e h
    cases j with
    | zero =>
      rw [show (a :: es).get? 0 = some a from rfl] at h
      injection h with h
      subst h
      rw [Nat.add_zero, expDict, dictFind?, if_pos rfl]
    | succ j =>
      rw [show (a :: es).get? (j + 1) = es.get? j from rfl] at h
      rw [expDict, dictFind?, if_neg ?_]
      · have hih := ih (i + 1) j e h
        rw [show i + (j + 1) = (i + 1) + j by omega]
        exact hih
      · intro hk
        have hk2 : i = i + (j + 1) := Int.ofNat.inj hk
        omega

/-- Positional index search over a cons cell. -/
theorem indexOfOid_cons (x : AcisEntity) (L : List AcisEntity) (n : Nat) :
    indexOfOid (x :: L) n =
      if x.oid = n then some 0 else (indexOfOid L n).map (fun k => k + 1) := by
  simp only [indexOfOid, List.findIdx?_cons]
  by_cases hx : x.oid = n
  · simp [hx]
  · simp [hx, List.findIdx?_start_succ]

/-- The expected pair list has one pair per entity. -/
theorem expPairs_length (full : List AcisEntity) (ver : Int) :
    ∀ (es : List AcisEntity) (i : Nat), (expPairs full ver es i).length = es.length := by
  intro es
  induction es with
  | nil => intro i; rfl
  | cons e es ih =>
    intro i
    rw [expPairs, List.length_cons, List.length_cons, ih]

/-- Searching the resolved sequence for identity `j` finds position `j - i`
(identities in the resolved sequence are the positions, offset by `i`). -/
theorem indexOfOid_expPairs (full : List AcisEntity) (ver : Int) :
    ∀ (es : List AcisEntity) (i j : Nat), i ≤ j → j < i + es.length →
    indexOfOid ((expPairs full ver es i).map (fun p => p.2)) j = some (j - i) := by
  intro es
  induction es with
  | nil =>
    intro i j h1 h2
    exact absurd h2 (by simp; omega)
  | cons e es ih =>
    intro i j h1 h2
    rw [expPairs, List.map_cons, indexOfOid_cons]
    by_cases hij : i = j
    · rw [if_pos (show (Int.ofNat i, expResolvedEntity full ver i e).2.oid = j from hij),
        show j - i = 0 by omega]
    · rw [if_neg (show ¬ (Int.ofNat i, expResolvedEntity full ver i e).2.oid = j from hij),
        ih (i + 1) j (by omega) (by rw [List.length_cons] at h2; omega),
        Option.map_some', show j - (i + 1) + 1 = j - i by omega]

/-- Resolving the serialized token of a valid reference against the expected
mapping yields the translated reference. -/
theorem ptrResolve_attrTok (full : List AcisEntity) (ver : Int) (r : ARef)
    (h : refOkB full r = true) :
    ptrResolve (expDict full ver full 0) (attrTok full r) = .ok (refTranslate full r) := by
  cases r with
  | pynone => cases h
  | null => rfl
  | obj n =>
    rw [refOkB] at h
    obtain ⟨j, hj⟩ := Option.isSome_iff_exists.mp h
    have hj2 := hj
    rw [indexOfOid] at hj2
    obtain ⟨hlen, hp, hmin⟩ := List.findIdx?_eq_some_iff_getElem.mp hj2
    have hget : full.get? j = some (full.get ⟨j, hlen⟩) := List.get?_eq_get hlen
    have hfind := expDict_find full ver full 0 j _ hget
    rw [Nat.zero_add] at hfind
    rw [attrTok, hj, show (some j).getD 0 = j from rfl, ptrResolve,
      if_pos (is_ptr_dollar _), strDrop1_dollar]
    have hint : pyIntE (natStr j) = .ok (Int.ofNat j) := by
      rw [pyIntE, pyInt?_natStr]
    rw [hint, exceptBind_ok, if_neg ?_, hfind, refTranslate, hj,
      show (some j).getD 0 = j from rfl]
    · rfl
    · intro hc
      have hge : (0 : Int) ≤ Int.ofNat j := Int.ofNat_nonneg j
      rw [hc] at hge
      norm_num at hge

/-- Unpacking the validity of one entity. -/
theorem entityOkB_parts (es : List AcisEntity) (ver : Int) (e : AcisEntity)
    (h : entityOkB es ver e = true) :
    nameOkB e.name = true ∧ refOkB es e.attributes = true ∧
    (∀ d ∈ e.data, (match d with
      | DItem.lit s => litOkB s
      | DItem.ref r => refOkB es r) = true) ∧
    (ver ≥ 700 ∨ e.id = -1) := by
  rw [entityOkB, Bool.and_eq_true, Bool.and_eq_true, Bool.and_eq_true] at h
  obtain ⟨⟨⟨h1, h2⟩, h3⟩, h4⟩ := h
  refine ⟨h1, h2, fun d hd => ?_, ?_⟩
  · rw [List.all_eq_true] at h3
    exact h3 d hd
  · simp only [Bool.or_eq_true, decide_eq_true_eq, beq_iff_eq] at h4
    exact h4

/-- Re-resolving the serialized token of one valid data element yields the
translated element. -/
theorem resolveItem_expected (full : List AcisEntity) (ver : Int) (d : DItem)
    (hd : (match d with
      | DItem.lit s => litOkB s
      | DItem.ref r => refOkB full r) = true) :
    resolveItem (expDict full ver full 0) (DItem.lit (dTok full d))
      = .ok (expResolvedItem full d) := by
  cases d with
  | lit s =>
    have hd2 : litOkB s = true := hd
    rw [litOkB, Bool.and_eq_true] at hd2
    rw [dTok, resolveItem, if_neg ?_, expResolvedItem]
    simp only [Bool.not_eq_true'] at hd2
    exact fun hc => by rw [hd2.2] at hc; cases hc
  | ref r =>
    rw [dTok, resolveItem, expResolvedItem]
    cases r with
    | pynone => cases hd
    | null =>
      rw [if_pos (show is_ptr (attrTok full ARef.null) = true from rfl)]
      rw [ptrResolve_attrTok full ver ARef.null hd]
      rfl
    | obj n =>
      rw [show attrTok full (ARef.obj n)
          = "$" ++ natStr ((indexOfOid full n).getD 0) from rfl,
        if_pos (is_ptr_dollar _),
        show ("$" ++ natStr ((indexOfOid full n).getD 0))
          = attrTok full (ARef.obj n) from rfl,
        ptrResolve_attrTok full ver (ARef.obj n) hd]
      rfl

/-- Re-resolving every serialized data token of a valid entity yields the
translated data list. -/
theorem resolveItems_expected (full : List AcisEntity) (ver : Int) :
    ∀ (ds : List DItem),
    (∀ d ∈ ds, (match d with
      | DItem.lit s => litOkB s
      | DItem.ref r => refOkB full r) = true) →
    exceptMapM (resolveItem (expDict full ver full 0)) ((ds.map (dTok full)).map DItem.lit)
      = .ok (ds.map (expResolvedItem full)) := by
  intro ds
  induction ds with
  | nil => intro _; rfl
  | cons d ds ih =>
    intro hall
    rw [List.map_cons, List.map_cons, exceptMapM,
      resolveItem_expected full ver d (hall d (List.mem_cons_self d ds)), exceptBind_ok,
      ih (fun x hx => hall x (List.mem_cons_of_mem d hx)), exceptBind_ok, List.map_cons]

/-- Resolution of the unresolved entity rebuilt at position `i` from a valid
entity yields exactly the expected resolved entity. -/
theorem resolveEntity_expected (full : List AcisEntity) (ver : Int) (i : Nat)
    (e : AcisEntity) (h : entityOkB full ver e = true) :
    resolveEntity (expDict full ver full 0) (expEntity full ver i e)
      = .ok (expResolvedEntity full ver i e) := by
  obtain ⟨_, hattr, hdata, _⟩ := entityOkB_parts full ver e h
  rw [resolveEntity,
    show (expEntity full ver i e).attr_ptr = attrTok full e.attributes from rfl,
    ptrResolve_attrTok full ver e.attributes hattr, exceptBind_ok,
    show (expEntity full ver i e).data = (e.data.map (dTok full)).map DItem.lit from rfl,
    resolveItems_expected full ver e.data hdata, exceptBind_ok]
  rfl

/-- The resolution loop over the expected mapping of a valid suffix yields
the expected resolved pairs. -/
theorem resolveLoop_expected (full : List AcisEntity) (ver : Int) :
    ∀ (es : List AcisEntity) (i : Nat),
    (∀ e ∈ es, entityOkB full ver e = true) →
    exceptMapM (resolveEntry (expDict full ver full 0)) (expDict full ver es i)
      = .ok (expPairs full ver es i) := by
  intro es
  induction es with
  | nil => intro i _; rfl
  | cons e es ih =>
    intro i hall
    rw [expDict, exceptMapM, resolveEntry,
      resolveEntity_expected full ver i e (hall e (List.mem_cons_self e es)),
      exceptBind_ok, exceptBind_ok,
      ih (i + 1) (fun x hx => hall x (List.mem_cons_of_mem e hx)),
      exceptBind_ok, expPairs]

/-- Inserting below every key of a list keeps the element in front. -/
theorem insertByKey_le (p : Int × AcisEntity) (l : List (Int × AcisEntity))
    (h : ∀ q ∈ l, p.1 ≤ q.1) : insertByKey p l = p :: l := by
  cases l with
  | nil => rfl
  | cons q qs => rw [insertByKey, if_pos (h q (List.mem_cons_self q qs))]

/-- Sorting an already key-sorted list is the identity. -/
theorem sortByKey_sorted_id :
    ∀ l : List (Int × AcisEntity),
    List.Pairwise (fun p q => p.1 ≤ q.1) l → sortByKey l = l := by
  intro l
  induction l with
  | nil => intro _; rfl
  | cons p ps ih =>
    intro hp
    rw [List.pairwise_cons] at hp
    rw [sortByKey, ih hp.2, insertByKey_le p ps hp.1]

/-- Every key of the expected pairs at offset `i` is at least `i`. -/
theorem expPairs_key_lb (full : List AcisEntity) (ver : Int) :
    ∀ (es : List AcisEntity) (i : Nat) (q : Int × AcisEntity),
    q ∈ expPairs full ver es i → Int.ofNat i ≤ q.1 := by
  intro es
  induction es with
  | nil => intro i q hq; cases hq
  | cons e es ih =>
    intro i q hq
    rw [expPairs] at hq
    rcases List.mem_cons.mp hq with hq | hq
    · subst hq
      exact le_refl _
    · exact le_trans (Int.ofNat_le.mpr (Nat.le_succ i)) (ih (i + 1) q hq)

/-- The expected pairs are key-sorted. -/
theorem expPairs_pairwise (full : List AcisEntity) (ver : Int) :
    ∀ (es : List AcisEntity) (i : Nat),
    List.Pairwise (fun p q => p.1 ≤ q.1) (expPairs full ver es i) := by
  intro es
  induction es with
  | nil => intro i; exact List.Pairwise.nil
  | cons e es ih =>
    intro i
    rw [expPairs]
    exact List.Pairwise.cons
      (fun q hq => le_trans (Int.ofNat_le.mpr (Nat.le_succ i))
        (expPairs_key_lb full ver es (i + 1) q hq))
      (ih (i + 1))

/-- `resolve_str_pointers` on the expected mapping of a valid graph yields
the expected resolved entities in order. -/
theorem resolve_str_pointers_expected (full : List AcisEntity) (ver : Int)
    (h : ∀ e ∈ full, entityOkB full ver e = true) :
    resolve_str_pointers (expDict full ver full 0)
      = .ok ((expPairs full ver full 0).map (fun p => p.2)) := by
  rw [resolve_str_pointers, resolveLoop_expected full ver full 0 h, exceptBind_ok,
    sortByKey_sorted_id _ (expPairs_pairwise full ver full 0)]

/-- A valid reference observes the same position in the round-tripped
sequence as in the original. -/
theorem refObs_translate (full : List AcisEntity) (ver : Int) (r : ARef)
    (h : refOkB full r = true) :
    refObs ((expPairs full ver full 0).map (fun p => p.2)) (refTranslate full r)
      = refObs full r := by
  cases r with
  | pynone => cases h
  | null => rfl
  | obj n =>
    rw [refOkB] at h
    obtain ⟨j, hj⟩ := Option.isSome_iff_exists.mp h
    have hj2 := hj
    rw [indexOfOid] at hj2
    obtain ⟨hlen, -, -⟩ := List.findIdx?_eq_some_iff_getElem.mp hj2
    rw [refTranslate, hj, show (some j).getD 0 = j from rfl, refObs,
      indexOfOid_expPairs full ver full 0 j (Nat.zero_le j) (by omega),
      Nat.sub_zero, refObs, hj]

/-- A valid data element observes the same value after translation. -/
theorem dataObs_translate (full : List AcisEntity) (ver : Int) (d : DItem)
    (hd : (match d with
      | DItem.lit s => litOkB s
      | DItem.ref r => refOkB full r) = true) :
    dataObs ((expPairs full ver full 0).map (fun p => p.2)) (expResolvedItem full d)
      = dataObs full d := by
  cases d with
  | lit s => rfl
  | ref r =>
    rw [expResolvedItem, dataObs, dataObs, refObs_translate full ver r hd]

/-- A valid data list observes the same values after translation. -/
theorem dataList_obs_translate (full : List AcisEntity) (ver : Int) :
    ∀ (ds : List DItem),
    (∀ d ∈ ds, (match d with
      | DItem.lit s => litOkB s
      | DItem.ref r => refOkB full r) = true) →
    (ds.map (expResolvedItem full)).map
        (dataObs ((expPairs full ver full 0).map (fun p => p.2)))
      = ds.map (dataObs full) := by
  intro ds
  induction ds with
  | nil => intro _; rfl
  | cons d ds ih =>
    intro hall
    rw [List.map_cons, List.map_cons, List.map_cons,
      dataObs_translate full ver d (hall d (List.mem_cons_self d ds)),
      ih (fun x hx => hall x (List.mem_cons_of_mem d hx))]

/-- A valid entity observes the same tuple after the round trip. -/
theorem entityObs_translate (full : List AcisEntity) (ver : Int) (i : Nat)
    (e : AcisEntity) (h : entityOkB full ver e = true) :
    entityObs ((expPairs full ver full 0).map (fun p => p.2))
        (expResolvedEntity full ver i e)
      = entityObs full e := by
  obtain ⟨-, hattr, hdata, hid⟩ := entityOkB_parts full ver e h
  have hidq : (expResolvedEntity full ver i e).id = e.id := by
    rw [show (expResolvedEntity full ver i e).id
        = (if ver ≥ 700 then e.id else -1) from rfl]
    rcases hid with h7 | hm1
    · rw [if_pos h7]
    · rw [hm1, ite_self]
  have hattr2 : refObs ((expPairs full ver full 0).map (fun p => p.2))
      (expResolvedEntity full ver i e).attributes = refObs full e.attributes :=
    refObs_translate full ver e.attributes hattr
  have hdata2 : ((expResolvedEntity full ver i e).data).map
      (dataObs ((expPairs full ver full 0).map (fun p => p.2)))
      = e.data.map (dataObs full) :=
    dataList_obs_translate full ver e.data hdata
  simp only [entityObs]
  rw [EntityObs.mk.injEq]
  exact ⟨rfl, hidq, hattr2, hdata2⟩

/-- The whole round-tripped sequence observes the same tuples, entity by
entity. -/
theorem entityList_obs_translate (full : List AcisEntity) (ver : Int) :
    ∀ (es : List AcisEntity) (i : Nat),
    (∀ e ∈ es, entityOkB full ver e = true) →
    ((expPairs full ver es i).map (fun p => p.2)).map
        (entityObs ((expPairs full ver full 0).map (fun p => p.2)))
      = es.map (entityObs full) := by
  intro es
  induction es with
  | nil => intro i _; rfl
  | cons e es ih =>
    intro i hall
    rw [expPairs, List.map_cons, List.map_cons, List.map_cons,
      entityObs_translate full ver i e (hall e (List.mem_cons_self e es)),
      ih (i + 1) (fun x hx => hall x (List.mem_cons_of_mem e hx))]

/-- C1 (amended): for every graph that is valid in the round-trip sense --
every reference resolves within the graph's own sequence or to the null
sentinel, every entity name is a single nonempty whitespace-free token that
does not end in `=` and does not open with either end-of-data marker, every
literal data token is a single nonempty whitespace-free token not beginning
with `$`, and the header version is at least 700 or every id is `-1` --
parsing the dumped line sequence succeeds and yields a graph whose entities
match the original position by position in name, id,
resolved-reference-by-position, and literal data tokens. -/
theorem claim_C1 (t : AcisTree) (h : validTreeB t = true) :
    ∃ lines t2, t.dump_sat = .ok lines ∧ parse_sat lines = .ok t2 ∧
      treeObs t2 = treeObs t := by
  have hall : ∀ e ∈ t.entities, entityOkB t.entities t.header.version e = true := by
    rw [validTreeB, List.all_eq_true] at h
    exact h
  have hdump : t.dump_sat = .ok (t.header.dumps ++
      (t.entities.map (recLine t.entities t.header.version) ++ ["End-of-ACIS-data "])) := by
    rw [AcisTree.dump_sat, build_str_records_ok t.entities t.header.version hall,
      exceptBind_ok, List.append_assoc]
  obtain ⟨h2, hph, hver⟩ := parse_sat_header_dumps t.header
    (t.entities.map (recLine t.entities t.header.version) ++ ["End-of-ACIS-data "])
  have hmerge : mergeRecordStrings (t.entities.map (recLine t.entities t.header.version)
      ++ ["End-of-ACIS-data "]) = t.entities.map (recLine t.entities t.header.version) := by
    rw [mergeRecordStrings]
    apply mergeRecGo_terminated
    intro l hl
    obtain ⟨e, he, rfl⟩ := List.mem_map.mp hl
    have hnm := (entityOkB_parts _ _ _ (hall e he)).1
    have hnm2 := hnm
    rw [nameOkB, Bool.and_eq_true, Bool.and_eq_true, Bool.and_eq_true] at hnm2
    obtain ⟨⟨⟨-, -⟩, hm1⟩, hm2⟩ := hnm2
    simp only [Bool.not_eq_true'] at hm1 hm2
    exact ⟨recLine_ne_empty _ _ _, recLine_last_sharp _ _ _,
      recLine_no_marker _ _ _ hnm "End-of-ACIS-data" (by decide) hm1,
      recLine_no_marker _ _ _ hnm "Begin-of-ACIS-History-Data" (by decide) hm2⟩
  have hrecs : parse_records (t.entities.map (recLine t.entities t.header.version)
      ++ ["End-of-ACIS-data "])
      = .ok (expRecords (t.entities.map (recTokens t.entities t.header.version)) 0) := by
    rw [parse_records, hmerge]
    have hmm : t.entities.map (recLine t.entities t.header.version)
        = (t.entities.map (recTokens t.entities t.header.version)).map sJoin := by
      rw [List.map_map]
      rfl
    rw [hmm]
    apply parseRecordsGo_expected
    intro tl htl
    obtain ⟨e, he, rfl⟩ := List.mem_map.mp htl
    refine ⟨⟨e.name, attrTok t.entities e.attributes ::
        (((if t.header.version ≥ 700 then [intStr e.id] else [])
          ++ e.data.map (dTok t.entities)) ++ ["#"]),
      rfl, (entityOkB_parts _ _ _ (hall e he)).1⟩,
      recTokens_all_tokenOk _ _ _ (hall e he)⟩
  have hbuild : build_entities
      (expRecords (t.entities.map (recTokens t.entities t.header.version)) 0) h2.version
      = .ok (expDict t.entities t.header.version t.entities 0) := by
    rw [build_entities, hver]
    have hb := buildEntitiesGo_expected t.entities t.header.version t.entities 0 []
      (fun p hp => absurd hp (List.not_mem_nil p))
    rw [show (Int.ofNat 0 : Int) = 0 from rfl, List.nil_append] at hb
    exact hb
  have hres := resolve_str_pointers_expected t.entities t.header.version hall
  refine ⟨_, AcisTree.set_entities { header := h2 }
      ((expPairs t.entities t.header.version t.entities 0).map (fun p => p.2)),
    hdump, ?_, ?_⟩
  · rw [parse_sat]
    simp only [hph, exceptBind_ok, hrecs, hbuild, hres]
  · rw [show treeObs (AcisTree.set_entities { header := h2 }
        ((expPairs t.entities t.header.version t.entities 0).map (fun p => p.2)))
        = ((expPairs t.entities t.header.version t.entities 0).map (fun p => p.2)).map
            (entityObs ((expPairs t.entities t.header.version t.entities 0).map
              (fun p => p.2))) from rfl]
    rw [entityList_obs_translate t.entities t.header.version t.entities 0 hall]
    rfl

/-- Witness for C1 (amended): the concrete two-entity graph `cwTree` is
valid and round-trips with equal observations. -/
theorem claim_C1_witness :
    validTreeB cwTree = true ∧
    ∃ lines t2, cwTree.dump_sat = .ok lines ∧ parse_sat lines = .ok t2 ∧
      treeObs t2 = treeObs cwTree :=
  ⟨by decide, claim_C1 cwTree (by decide)⟩
